import Mathlib

/-!
# Heap memory manager (`src/hmm.c`): a shallow embedding

The allocator of `src/hmm.c` keeps one static arena `heap[HEAP_SIZE]`, a break pointer, the head
of an intrusive doubly linked free list and five counters.  The embedding below follows the C
functions statement by statement.

Modelling conventions.

* Pointers are 64-bit addresses (`Nat` below `2 ^ 64`), `NULL` is `0`, and the address of
  `heap[0]` is a parameter `base` of every function.  Pointer and `size_t` arithmetic wrap
  modulo `2 ^ 64` (`uadd`, `usub`).
* The array `heap` is an array of bytes.  It is kept as the list of the stores made to it since
  it was last all zero (`HmmState.heap_stores`, newest first): `byte_at` is the byte at an
  address and `read_at` the number held by an object of 4 or 8 bytes, least significant byte
  first (the byte order of x86-64 and AArch64).  A block header is the 40 bytes of a
  `block_header_t` on LP64: `size` in the 8 bytes at offset 0, `is_free` in the 4 bytes at
  offset 8, `next` and `prev` in the 8 bytes at offsets 16 and 24, `magic` in the 4 bytes at
  offset 32; `HmmState.heap s a` is the header read at the address `a`.  Headers less than 40
  bytes apart share bytes: a store to a field of one changes the fields of the other that lie
  on the same bytes.  The allocator reads and writes nothing but headers, and the writes a
  client makes to its payload are not part of the model.
* Every access through a pointer is checked (`load`, `store_*`): the header must lie inside the
  array `heap[0 .. HEAP_SIZE)`.  An access through `NULL` or through any other pointer outside
  the array is undefined behaviour in C; the embedding then yields `none`.  A failed `assert`
  (which aborts) also yields `none`.
* `find_free_block` loops over the free list; the embedding bounds the loop by `HEAP_SIZE`
  iterations, more than the number of headers that fit in the arena, and yields `none` when the
  bound is exhausted (the list is then cyclic and the C loop does not return).
* `HmmFree` prints a diagnostic on two of its branches; the embedding returns it as a `Diag`.
-/

namespace Hmm

/-! ## Constants and machine arithmetic -/

/-- Number of values of `size_t`, `intptr_t` and of a pointer (LP64). -/
def WORD : Nat := 2 ^ 64

/-- The arena capacity, `#define HEAP_SIZE (100 * 1024 * 1024)`. -/
def HEAP_SIZE : Nat := 100 * 1024 * 1024

/-- The alignment unit, `#define ALIGNMENT 16`. -/
def ALIGNMENT : Nat := 16

/-- Unsigned 64-bit addition. -/
def uadd (a b : Nat) : Nat := (a + b) % WORD

/-- Unsigned 64-bit subtraction. -/
def usub (a b : Nat) : Nat := (a + (WORD - b % WORD)) % WORD

/-- The macro `ALIGN(size) = ((size) + (ALIGNMENT-1)) & ~(ALIGNMENT-1)` on `size_t`:
the sum wraps and `~(ALIGNMENT-1)` is the 64-bit complement of `15`. -/
def ALIGN (size : Nat) : Nat := (uadd size (ALIGNMENT - 1)) &&& (WORD - 1 - (ALIGNMENT - 1))

/-- The value of `sizeof(block_header_t)` on LP64: `size_t`, `int` (padded to 8), two pointers,
`unsigned int` (padded to 8). -/
def sizeof_block_header_t : Nat := 40

/-- The header size, `#define HEADER_SIZE ALIGN(sizeof(block_header_t))`. -/
def HEADER_SIZE : Nat := ALIGN sizeof_block_header_t

/-- The integrity tag, `#define MAGIC_NUMBER 0xDEADBEEF`. -/
def MAGIC_NUMBER : Nat := 0xDEADBEEF

/-- The minimum growth chunk, `#define MIN_ALLOC_SIZE 4096`. -/
def MIN_ALLOC_SIZE : Nat := 4096

/-- The null pointer. -/
def NULL : Nat := 0

/-- The failure value of `sbrk_simulate`, `(void *)-1`. -/
def SBRK_FAILED : Nat := WORD - 1

/-- Conversion of a `size_t` argument to the `intptr_t` parameter of `sbrk_simulate`
(two's complement). -/
def to_intptr (n : Nat) : Int := if n % WORD < 2 ^ 63 then (n % WORD : Nat) else (n % WORD : Nat) - (WORD : Int)

/-! ## Data model -/

/-- The struct `block_header_t`. -/
structure block_header_t where
  size : Nat
  is_free : Int
  next : Nat
  prev : Nat
  magic : Nat
deriving DecidableEq, Repr

/-- The all-zero header, as found in the zero-initialised static array. -/
def zero_header : block_header_t := ⟨0, 0, 0, 0, 0⟩

/-- One store to the array `heap`: the `len` bytes from address `addr` on receive the number
`val`, least significant byte first. -/
structure heap_store where
  addr : Nat
  len : Nat
  val : Nat
deriving DecidableEq, Repr

/-- The byte of the array at address `x`, after the stores `ws` (newest first) have been made
to the all-zero array. -/
def byte_at : List heap_store → Nat → Nat
  | [], _ => 0
  | w :: ws, x =>
    if w.addr ≤ x ∧ x < w.addr + w.len then (w.val / 256 ^ (x - w.addr)) % 256
    else byte_at ws x

/-- The number held by the `n` bytes from address `a` on, least significant byte first. -/
def bytes_at (ws : List heap_store) : Nat → Nat → Nat
  | _, 0 => 0
  | a, n + 1 => byte_at ws a + 256 * bytes_at ws (a + 1) n

/-- Read of the `n`-byte object at address `a`.  The result is `bytes_at ws a n` (lemma
`read_at_eq_bytes_at`); a store of the very same object is read back whole and a store that
does not touch the object is skipped, only a store that covers part of it is taken apart into
bytes. -/
def read_at : List heap_store → Nat → Nat → Nat
  | [], _, _ => 0
  | w :: ws, a, n =>
    if w.addr = a ∧ w.len = n then w.val % 256 ^ n
    else if w.addr + w.len ≤ a ∨ a + n ≤ w.addr then read_at ws a n
    else bytes_at (w :: ws) a n

/-- The value of an `int` object with the representation `x` (32 bits, two's complement). -/
def to_int (x : Nat) : Int :=
  if x % 2 ^ 32 < 2 ^ 31 then ((x % 2 ^ 32 : Nat) : Int) else ((x % 2 ^ 32 : Nat) : Int) - 2 ^ 32

/-- The representation of the `int` value `v`. -/
def of_int (v : Int) : Nat := (v % 2 ^ 32).toNat

/-- The static variables of `hmm.c`.  The array `heap` is given by the stores made to it since
it was last all zero, newest first. -/
structure HmmState where
  heap_stores : List heap_store
  program_break : Nat
  free_list_head : Nat
  total_allocated : Nat
  total_freed : Nat
  num_allocs : Nat
  num_frees : Nat
  program_break_increments : Nat

/-- The object `*(block_header_t *)a` as it lies in the array `heap`: `size` in the 8 bytes at
offset 0, `is_free` in the 4 bytes at offset 8, `next` at offset 16, `prev` at offset 24 and
`magic` in the 4 bytes at offset 32. -/
def HmmState.heap (s : HmmState) (a : Nat) : block_header_t :=
  { size := read_at s.heap_stores a 8
    is_free := to_int (read_at s.heap_stores (a + 8) 4)
    next := read_at s.heap_stores (a + 16) 8
    prev := read_at s.heap_stores (a + 24) 8
    magic := read_at s.heap_stores (a + 32) 4 }

/-- The state at program start: `program_break = heap`, empty free list, zero counters,
zero-initialised array. -/
def init_state (base : Nat) : HmmState :=
  { heap_stores := []
    program_break := base
    free_list_head := NULL
    total_allocated := 0
    total_freed := 0
    num_allocs := 0
    num_frees := 0
    program_break_increments := 0 }

/-- A header at address `a` lies inside the array `heap[0 .. HEAP_SIZE)`. -/
def inHeap (base a : Nat) : Prop := base ≤ a ∧ a + sizeof_block_header_t ≤ base + HEAP_SIZE

instance inHeap_decidable (base a : Nat) : Decidable (inHeap base a) := by
  unfold inHeap
  infer_instance

/-- Store the number `v` into the `n` bytes of the array from address `a` on. -/
def poke (s : HmmState) (a n v : Nat) : HmmState :=
  { s with heap_stores := { addr := a, len := n, val := v } :: s.heap_stores }

/-- Read `*p`. -/
def load (base : Nat) (s : HmmState) (p : Nat) : Option block_header_t :=
  if inHeap base p then some (s.heap p) else none

/-- Assignment `p->size = v`. -/
def store_size (base : Nat) (s : HmmState) (p v : Nat) : Option HmmState :=
  if inHeap base p then some (poke s p 8 v) else none

/-- Assignment `p->is_free = v`. -/
def store_is_free (base : Nat) (s : HmmState) (p : Nat) (v : Int) : Option HmmState :=
  if inHeap base p then some (poke s (p + 8) 4 (of_int v)) else none

/-- Assignment `p->next = v`. -/
def store_next (base : Nat) (s : HmmState) (p v : Nat) : Option HmmState :=
  if inHeap base p then some (poke s (p + 16) 8 v) else none

/-- Assignment `p->prev = v`. -/
def store_prev (base : Nat) (s : HmmState) (p v : Nat) : Option HmmState :=
  if inHeap base p then some (poke s (p + 24) 8 v) else none

/-- Assignment `p->magic = v`. -/
def store_magic (base : Nat) (s : HmmState) (p v : Nat) : Option HmmState :=
  if inHeap base p then some (poke s (p + 32) 4 v) else none

/-! ## The functions of `hmm.c` -/

/-- The function `sbrk_simulate`: returns the new state and the returned pointer. -/
def sbrk_simulate (base : Nat) (s : HmmState) (increment : Int) : HmmState × Nat :=
  let old_break := s.program_break
  let new_break := (((s.program_break : Int) + increment) % (WORD : Int)).toNat
  if new_break < base ∨ new_break > base + HEAP_SIZE then
    (s, SBRK_FAILED)
  else if increment > 0 then
    ({ s with program_break := new_break
              program_break_increments := uadd s.program_break_increments 1 }, old_break)
  else
    ({ s with program_break := new_break }, old_break)

/-- The loop of `find_free_block`, started at `current`, with an iteration bound. -/
def find_free_block_from (base : Nat) (s : HmmState) (size : Nat) : Nat → Nat → Option Nat
  | 0, _ => none
  | fuel + 1, current =>
    if current = NULL then some NULL
    else
      match load base s current with
      | none => none
      | some c =>
        if c.magic ≠ MAGIC_NUMBER then none
        else if c.is_free ≠ 0 ∧ c.size ≥ size then some current
        else find_free_block_from base s size fuel c.next

/-- The function `find_free_block`. -/
def find_free_block (base : Nat) (s : HmmState) (size : Nat) : Option Nat :=
  find_free_block_from base s size HEAP_SIZE s.free_list_head

/-- The function `remove_from_free_list`. -/
def remove_from_free_list (base : Nat) (s : HmmState) (block : Nat) : Option HmmState := do
  let b ← load base s block
  let s1 ← (if b.prev ≠ NULL then store_next base s b.prev b.next
            else some { s with free_list_head := b.next })
  let b1 ← load base s1 block
  let s2 ← (if b1.next ≠ NULL then store_prev base s1 b1.next b1.prev else some s1)
  let s3 ← store_next base s2 block NULL
  store_prev base s3 block NULL

/-- The function `add_to_free_list`. -/
def add_to_free_list (base : Nat) (s : HmmState) (block : Nat) : Option HmmState := do
  let s1 ← store_next base s block s.free_list_head
  let s2 ← store_prev base s1 block NULL
  let s3 ← (if s2.free_list_head ≠ NULL then store_prev base s2 s2.free_list_head block
            else some s2)
  some { s3 with free_list_head := block }

/-- The function `split_block`. -/
def split_block (base : Nat) (s : HmmState) (block size : Nat) : Option HmmState := do
  let b ← load base s block
  if b.size ≥ uadd (uadd size HEADER_SIZE) ALIGNMENT then
    let new_block := uadd (uadd block HEADER_SIZE) size
    let s1 ← store_size base s new_block (usub (usub b.size size) HEADER_SIZE)
    let s2 ← store_is_free base s1 new_block 1
    let s3 ← store_magic base s2 new_block MAGIC_NUMBER
    let b3 ← load base s3 block
    let s4 ← store_next base s3 new_block b3.next
    let s5 ← store_prev base s4 new_block block
    let b5 ← load base s5 block
    let s6 ← (if b5.next ≠ NULL then store_prev base s5 b5.next new_block else some s5)
    let s7 ← store_next base s6 block new_block
    store_size base s7 block size
  else
    some s

/-- The first `if` of `coalesce`: merge with `block->next`. -/
def coalesce_next (base : Nat) (s : HmmState) (block : Nat) : Option HmmState := do
  let b ← load base s block
  if b.next ≠ NULL then
    let nx ← load base s b.next
    if nx.is_free ≠ 0 then
      let block_end := uadd (uadd block HEADER_SIZE) b.size
      if block_end = b.next then
        let s1 ← store_size base s block (uadd b.size (uadd HEADER_SIZE nx.size))
        let b1 ← load base s1 block
        let s2 ← remove_from_free_list base s1 b1.next
        let b2 ← load base s2 block
        let nn ← load base s2 b2.next
        let s3 ← store_next base s2 block nn.next
        let b3 ← load base s3 block
        if b3.next ≠ NULL then store_prev base s3 b3.next block else some s3
      else some s
    else some s
  else some s

/-- The second `if` of `coalesce`: merge with `block->prev`. -/
def coalesce_prev (base : Nat) (s : HmmState) (block : Nat) : Option HmmState := do
  let b ← load base s block
  if b.prev ≠ NULL then
    let pv ← load base s b.prev
    if pv.is_free ≠ 0 then
      let prev_end := uadd (uadd b.prev HEADER_SIZE) pv.size
      if prev_end = block then
        let s1 ← store_size base s b.prev (uadd pv.size (uadd HEADER_SIZE b.size))
        let s2 ← remove_from_free_list base s1 block
        let b2 ← load base s2 block
        let s3 ← store_next base s2 b2.prev b2.next
        let b3 ← load base s3 block
        if b3.next ≠ NULL then store_prev base s3 b3.next b3.prev else some s3
      else some s
    else some s
  else some s

/-- The function `coalesce`. -/
def coalesce (base : Nat) (s : HmmState) (block : Nat) : Option HmmState := do
  let s1 ← coalesce_next base s block
  coalesce_prev base s1 block

/-- The two counter updates at the end of `HmmAlloc`. -/
def count_alloc (s : HmmState) (size : Nat) : HmmState :=
  { s with total_allocated := uadd s.total_allocated size
           num_allocs := uadd s.num_allocs 1 }

/-- The function `HmmAlloc`: returns the new state and the returned pointer. -/
def HmmAlloc (base : Nat) (s : HmmState) (size : Nat) : Option (HmmState × Nat) :=
  if size = 0 then some (s, NULL)
  else do
    let size := ALIGN size
    let block ← find_free_block base s size
    if block ≠ NULL then
      let s1 ← remove_from_free_list base s block
      let s2 ← split_block base s1 block size
      let s3 ← store_is_free base s2 block 0
      some (count_alloc s3 size, uadd block HEADER_SIZE)
    else
      let request_size :=
        if uadd size HEADER_SIZE > MIN_ALLOC_SIZE then uadd size HEADER_SIZE else MIN_ALLOC_SIZE
      let r := sbrk_simulate base s (to_intptr request_size)
      if r.2 = SBRK_FAILED then some (r.1, NULL)
      else
        let block := r.2
        let s1 ← store_size base r.1 block (usub request_size HEADER_SIZE)
        let s2 ← store_is_free base s1 block 0
        let s3 ← store_next base s2 block NULL
        let s4 ← store_prev base s3 block NULL
        let s5 ← store_magic base s4 block MAGIC_NUMBER
        let s6 ← split_block base s5 block size
        let b6 ← load base s6 block
        let s7 ← (if b6.next ≠ NULL then
                    (load base s6 b6.next).bind fun nx =>
                      if nx.is_free ≠ 0 then add_to_free_list base s6 b6.next else some s6
                  else some s6)
        some (count_alloc s7 size, uadd block HEADER_SIZE)

/-- The diagnostic a call of `HmmFree` writes to `stderr`. -/
inductive Diag where
  | silent
  | invalid_pointer
  | double_free
deriving DecidableEq, Repr

/-- The two counter updates of `HmmFree`. -/
def count_free (s : HmmState) (size : Nat) : HmmState :=
  { s with total_freed := uadd s.total_freed size
           num_frees := uadd s.num_frees 1 }

/-- The function `HmmFree`: returns the new state and the diagnostic printed. -/
def HmmFree (base : Nat) (s : HmmState) (ptr : Nat) : Option (HmmState × Diag) :=
  if ptr = NULL then some (s, Diag.silent)
  else do
    let block := usub ptr HEADER_SIZE
    let b ← load base s block
    if b.magic ≠ MAGIC_NUMBER then some (s, Diag.invalid_pointer)
    else if b.is_free ≠ 0 then some (s, Diag.double_free)
    else
      let s1 ← store_is_free base s block 1
      let b1 ← load base s1 block
      let s2 := count_free s1 b1.size
      let s3 ← add_to_free_list base s2 block
      let s4 ← coalesce base s3 block
      some (s4, Diag.silent)

/-- The function `HmmReset`. -/
def HmmReset (base : Nat) (_s : HmmState) : HmmState :=
  { heap_stores := []
    program_break := base
    free_list_head := NULL
    total_allocated := 0
    total_freed := 0
    num_allocs := 0
    num_frees := 0
    program_break_increments := 0 }

/-! ## Clients and reachable states -/

/-- A call of the public interface. -/
inductive Op where
  | alloc (n : Nat)
  | free (h : Nat)
  | reset
deriving DecidableEq, Repr

/-- The allocator state together with the handles the client holds: those returned by
`HmmAlloc` and not yet passed to `HmmFree`. -/
structure Session where
  state : HmmState
  live : List Nat

/-- One call by a well-behaved client: any `size_t` request, a release of a handle it holds,
or a reset (after which it holds no handle).  The result is `none` when the call has no
defined result or the client breaks this contract. -/
def step (base : Nat) (c : Session) : Op → Option Session
  | Op.alloc n =>
    if n < WORD then
      (HmmAlloc base c.state n).map fun r =>
        { state := r.1, live := if r.2 = NULL then c.live else r.2 :: c.live }
    else none
  | Op.free h =>
    if h ∈ c.live then
      (HmmFree base c.state h).map fun r => { state := r.1, live := c.live.erase h }
    else none
  | Op.reset => some { state := HmmReset base c.state, live := [] }

/-- A sequence of calls. -/
def run (base : Nat) : Session → List Op → Option Session
  | c, [] => some c
  | c, op :: ops => (step base c op).bind fun c1 => run base c1 ops

/-- The session at program start. -/
def init_session (base : Nat) : Session := { state := init_state base, live := [] }

/-- The array `heap` is an object of the address space: it does not start at `NULL` and its
end is an address. -/
def base_ok (base : Nat) : Prop := 0 < base ∧ base + HEAP_SIZE < WORD

instance base_ok_decidable (base : Nat) : Decidable (base_ok base) := by
  unfold base_ok
  infer_instance

/-- States reachable from program start by completed calls of a well-behaved client. -/
inductive Reachable (base : Nat) : Session → Prop where
  | init : base_ok base → Reachable base (init_session base)
  | step {c c1 : Session} {op : Op} :
      Reachable base c → step base c op = some c1 → Reachable base c1

/-! ## Frames -/

/-- A relation between states that is respected by every store to the array and by every
update of the free-list head. -/
structure link_frame (R : HmmState → HmmState → Prop) : Prop where
  refl : ∀ s, R s s
  trans : ∀ {s s1 s2}, R s s1 → R s1 s2 → R s s2
  poke : ∀ s a n v, R s (poke s a n v)
  head : ∀ s v, R s { s with free_list_head := v }

/-- The break and the five counters are the same in `s` and `s1`. -/
def regs_kept (s s1 : HmmState) : Prop :=
  s1.program_break = s.program_break ∧ s1.total_allocated = s.total_allocated ∧
    s1.total_freed = s.total_freed ∧ s1.num_allocs = s.num_allocs ∧
    s1.num_frees = s.num_frees ∧ s1.program_break_increments = s.program_break_increments

/-! ## Well-formed free lists -/

/-- The headers at the addresses `a` and `b` have no byte in common. -/
def apart (a b : Nat) : Prop :=
  a + sizeof_block_header_t ≤ b ∨ b + sizeof_block_header_t ≤ a

/-- The chain of `next` links started at the pointer `p` visits exactly the headers at the
addresses `l`, in this order, and then reaches `NULL`; every header visited lies in the array,
carries the tag and is marked free. -/
def free_list_from (base : Nat) (s : HmmState) : Nat → List Nat → Prop
  | p, [] => p = NULL
  | p, a :: l => p = a ∧ a ≠ NULL ∧ inHeap base a ∧ (s.heap a).magic = MAGIC_NUMBER ∧
      (s.heap a).is_free ≠ 0 ∧ free_list_from base s (s.heap a).next l

/-- The first-fit policy in the words of the specification: the first address in `l` whose
header has payload size at least `size`, or `NULL` when there is none.  The function
`find_free_block` is compared with it. -/
def first_fit (s : HmmState) (size : Nat) (l : List Nat) : Nat :=
  (l.find? fun a => decide (size ≤ (s.heap a).size)).getD NULL

/-! ## Concrete scenarios -/

/-- The address of `heap[0]` used in the concrete scenarios. -/
def demo_base : Nat := 0x10000

/-- The session after `HmmAlloc(64)` and `HmmAlloc(128)` from program start: the client holds
the handles `base + 48` and `base + 160`. -/
def demo_session : Session :=
  (run demo_base (init_session demo_base) [Op.alloc 64, Op.alloc 128]).getD
    (init_session demo_base)

/-- The session after `HmmAlloc(64)`, `HmmAlloc(128)` and the release of both handles, first
`base + 48`, then `base + 160`: the free list is `base + 112`, `base`. -/
def demo_two_free : Session :=
  (run demo_base (init_session demo_base)
    [Op.alloc 64, Op.alloc 128, Op.free (demo_base + 48), Op.free (demo_base + 160)]).getD
    (init_session demo_base)

/-- The session after `HmmAlloc(64)`, `HmmAlloc(2 ^ 64 - 4032)`, `HmmAlloc(5000)` and the release
of the third handle `base + 160`. -/
def demo_cycle : Session :=
  (run demo_base (init_session demo_base)
    [Op.alloc 64, Op.alloc (2 ^ 64 - 4032), Op.alloc 5000, Op.free (demo_base + 160)]).getD
    (init_session demo_base)

/-- The session after `HmmAlloc(64)`, `HmmAlloc(2 ^ 64 - 4064)` and `HmmAlloc(5000)`: the client
holds the handles `base + 48`, `base + 4144` and `base + 128`. -/
def demo_overlap : Session :=
  (run demo_base (init_session demo_base)
    [Op.alloc 64, Op.alloc (2 ^ 64 - 4064), Op.alloc 5000]).getD (init_session demo_base)

/-- The session after `HmmAlloc(4049)`, `HmmAlloc(2 ^ 64 - 4144)` and `HmmAlloc(16)`: the client
holds the handles `base + 48`, `base + 4160` and `base + 64`. -/
def demo_untagged : Session :=
  (run demo_base (init_session demo_base)
    [Op.alloc 4049, Op.alloc (2 ^ 64 - 4144), Op.alloc 16]).getD (init_session demo_base)

/-- A state that holds one fresh chunk as `HmmAlloc` sets it up before calling `split_block`:
break at `base + 4096` and an allocated block of payload size `4048` at the arena base. -/
def demo_chunk : HmmState :=
  poke (poke (poke (poke (poke
    { init_state demo_base with program_break := demo_base + 4096
                                program_break_increments := 1 }
    demo_base 8 4048) (demo_base + 8) 4 (of_int 0)) (demo_base + 16) 8 NULL)
    (demo_base + 24) 8 NULL) (demo_base + 32) 4 MAGIC_NUMBER

/-! ## Elementary facts -/

theorem HEADER_SIZE_eq : HEADER_SIZE = 48 := by decide

theorem WORD_eq : WORD = 18446744073709551616 := by decide

theorem HEAP_SIZE_eq : HEAP_SIZE = 104857600 := by decide

theorem load_eq_some {base : Nat} {s : HmmState} {p : Nat} {h : block_header_t} :
    load base s p = some h ↔ inHeap base p ∧ s.heap p = h := by
  unfold load
  split <;> simp [*]

theorem store_size_eq_some {base : Nat} {s s1 : HmmState} {p v : Nat} :
    store_size base s p v = some s1 ↔
      inHeap base p ∧ poke s p 8 v = s1 := by
  unfold store_size
  split <;> simp [*]

theorem store_is_free_eq_some {base : Nat} {s s1 : HmmState} {p : Nat} {v : Int} :
    store_is_free base s p v = some s1 ↔
      inHeap base p ∧ poke s (p + 8) 4 (of_int v) = s1 := by
  unfold store_is_free
  split <;> simp [*]

theorem store_next_eq_some {base : Nat} {s s1 : HmmState} {p v : Nat} :
    store_next base s p v = some s1 ↔
      inHeap base p ∧ poke s (p + 16) 8 v = s1 := by
  unfold store_next
  split <;> simp [*]

theorem store_prev_eq_some {base : Nat} {s s1 : HmmState} {p v : Nat} :
    store_prev base s p v = some s1 ↔
      inHeap base p ∧ poke s (p + 24) 8 v = s1 := by
  unfold store_prev
  split <;> simp [*]

theorem store_magic_eq_some {base : Nat} {s s1 : HmmState} {p v : Nat} :
    store_magic base s p v = some s1 ↔
      inHeap base p ∧ poke s (p + 32) 4 v = s1 := by
  unfold store_magic
  split <;> simp [*]

/-! ## The array as bytes -/

theorem bytes_at_nil (a n : Nat) : bytes_at [] a n = 0 := by
  induction n generalizing a with
  | zero => rfl
  | succ n ih => simp [bytes_at, byte_at, ih]

theorem bytes_at_cons_inside (w : heap_store) (ws : List heap_store) (n a : Nat)
    (h : w.addr ≤ a ∧ a + n ≤ w.addr + w.len) :
    bytes_at (w :: ws) a n = (w.val / 256 ^ (a - w.addr)) % 256 ^ n := by
  induction n generalizing a with
  | zero => simp [bytes_at, Nat.mod_one]
  | succ n ih =>
    have h1 : w.addr ≤ a ∧ a < w.addr + w.len := by omega
    have h2 : a + 1 - w.addr = (a - w.addr) + 1 := by omega
    simp only [bytes_at, byte_at, if_pos h1]
    rw [ih (a + 1) (by omega), h2, pow_succ, ← Nat.div_div_eq_div_mul, pow_succ,
      Nat.mul_comm (256 ^ n) 256, Nat.mod_mul]

theorem bytes_at_cons_outside (w : heap_store) (ws : List heap_store) (n a : Nat)
    (h : w.addr + w.len ≤ a ∨ a + n ≤ w.addr) :
    bytes_at (w :: ws) a n = bytes_at ws a n := by
  induction n generalizing a with
  | zero => rfl
  | succ n ih =>
    have h1 : ¬ (w.addr ≤ a ∧ a < w.addr + w.len) := by omega
    simp only [bytes_at, byte_at, if_neg h1]
    rw [ih (a + 1) (by omega)]

/-- The read of an object is the number its bytes hold. -/
theorem read_at_eq_bytes_at (ws : List heap_store) (a n : Nat) :
    read_at ws a n = bytes_at ws a n := by
  induction ws with
  | nil => simp [read_at, bytes_at_nil]
  | cons w ws ih =>
    unfold read_at
    by_cases h1 : w.addr = a ∧ w.len = n
    · rw [if_pos h1, bytes_at_cons_inside w ws n a (by omega)]
      have : a - w.addr = 0 := by omega
      rw [this, pow_zero, Nat.div_one]
    · rw [if_neg h1]
      by_cases h2 : w.addr + w.len ≤ a ∨ a + n ≤ w.addr
      · rw [if_pos h2, ih, bytes_at_cons_outside w ws n a h2]
      · rw [if_neg h2]

theorem read_at_hit (a l v : Nat) (ws : List heap_store) (x n : Nat) (h : a = x ∧ l = n) :
    read_at ({ addr := a, len := l, val := v } :: ws) x n = v % 256 ^ n := by
  simp only [read_at, if_pos h]

theorem read_at_miss (a l v : Nat) (ws : List heap_store) (x n : Nat) (hn : 0 < n)
    (h : a + l ≤ x ∨ x + n ≤ a) :
    read_at ({ addr := a, len := l, val := v } :: ws) x n = read_at ws x n := by
  have h1 : ¬ (a = x ∧ l = n) := by omega
  simp only [read_at, if_neg h1, if_pos h]

theorem read_at_nil (x n : Nat) : read_at [] x n = 0 := rfl

/-- In the initial state every header of the array reads as all zero. -/
theorem init_state_heap (base a : Nat) : (init_state base).heap a = zero_header := by
  simp [HmmState.heap, init_state, read_at_nil, zero_header, to_int]

theorem of_int_zero : of_int 0 = 0 := by decide

theorem of_int_one : of_int 1 = 1 := by decide

theorem to_int_zero : to_int 0 = 0 := by decide

theorem to_int_one : to_int 1 = 1 := by decide

theorem to_int_mod (x : Nat) : to_int (x % 256 ^ 4) = to_int x := by
  unfold to_int
  have h : x % 256 ^ 4 % 2 ^ 32 = x % 2 ^ 32 := by omega
  rw [h]

theorem heap_poke_size (s : HmmState) (p v : Nat) :
    (poke s p 8 v).heap p = { s.heap p with size := v % WORD } := by
  simp (disch := omega) only [HmmState.heap, poke, read_at_hit, read_at_miss]
  rfl

theorem heap_poke_is_free (s : HmmState) (p v : Nat) :
    (poke s (p + 8) 4 v).heap p = { s.heap p with is_free := to_int v } := by
  simp (disch := omega) only [HmmState.heap, poke, read_at_hit, read_at_miss, to_int_mod]

theorem heap_poke_next (s : HmmState) (p v : Nat) :
    (poke s (p + 16) 8 v).heap p = { s.heap p with next := v % WORD } := by
  simp (disch := omega) only [HmmState.heap, poke, read_at_hit, read_at_miss]
  rfl

theorem heap_poke_prev (s : HmmState) (p v : Nat) :
    (poke s (p + 24) 8 v).heap p = { s.heap p with prev := v % WORD } := by
  simp (disch := omega) only [HmmState.heap, poke, read_at_hit, read_at_miss]
  rfl

theorem heap_poke_magic (s : HmmState) (p v : Nat) :
    (poke s (p + 32) 4 v).heap p = { s.heap p with magic := v % 2 ^ 32 } := by
  simp (disch := omega) only [HmmState.heap, poke, read_at_hit, read_at_miss]
  rfl

theorem heap_poke_apart (s : HmmState) (p off n v a : Nat) (hn : 0 < n) (hoff : off + n ≤ 40)
    (h : a + 40 ≤ p ∨ p + 40 ≤ a) :
    (poke s (p + off) n v).heap a = s.heap a := by
  simp (disch := omega) only [HmmState.heap, poke, read_at_miss]

theorem heap_poke_apart_size (s : HmmState) (p v a : Nat) (h : a + 40 ≤ p ∨ p + 40 ≤ a) :
    (poke s p 8 v).heap a = s.heap a := by
  simp (disch := omega) only [HmmState.heap, poke, read_at_miss]

theorem heap_poke_apart_is_free (s : HmmState) (p v a : Nat) (h : a + 40 ≤ p ∨ p + 40 ≤ a) :
    (poke s (p + 8) 4 v).heap a = s.heap a :=
  heap_poke_apart s p 8 4 v a (by omega) (by omega) h

theorem heap_poke_apart_next (s : HmmState) (p v a : Nat) (h : a + 40 ≤ p ∨ p + 40 ≤ a) :
    (poke s (p + 16) 8 v).heap a = s.heap a :=
  heap_poke_apart s p 16 8 v a (by omega) (by omega) h

theorem heap_poke_apart_prev (s : HmmState) (p v a : Nat) (h : a + 40 ≤ p ∨ p + 40 ≤ a) :
    (poke s (p + 24) 8 v).heap a = s.heap a :=
  heap_poke_apart s p 24 8 v a (by omega) (by omega) h

theorem heap_poke_apart_magic (s : HmmState) (p v a : Nat) (h : a + 40 ≤ p ∨ p + 40 ≤ a) :
    (poke s (p + 32) 4 v).heap a = s.heap a :=
  heap_poke_apart s p 32 4 v a (by omega) (by omega) h

theorem poke_free_list_head (s : HmmState) (a n v : Nat) :
    (poke s a n v).free_list_head = s.free_list_head := rfl

theorem poke_program_break (s : HmmState) (a n v : Nat) :
    (poke s a n v).program_break = s.program_break := rfl

theorem poke_program_break_increments (s : HmmState) (a n v : Nat) :
    (poke s a n v).program_break_increments = s.program_break_increments := rfl

/-! ## Supporting lemmas -/

theorem reachable_run {base : Nat} (ops : List Op) :
    ∀ {c c1 : Session}, Reachable base c → run base c ops = some c1 → Reachable base c1 := by
  induction ops with
  | nil =>
    intro c c1 hc h
    simp only [run, Option.some.injEq] at h
    exact h ▸ hc
  | cons op ops ih =>
    intro c c1 hc h
    simp only [run, Option.bind_eq_some] at h
    obtain ⟨c2, h2, h3⟩ := h
    exact ih (Reachable.step hc h2) h3

theorem ite_some_cases {α : Type} {c : Prop} [Decidable c] {x y : Option α} {r : α}
    (h : (if c then x else y) = some r) : (c ∧ x = some r) ∨ (¬ c ∧ y = some r) := by
  by_cases hc : c
  · rw [if_pos hc] at h; exact Or.inl ⟨hc, h⟩
  · rw [if_neg hc] at h; exact Or.inr ⟨hc, h⟩

theorem eq_some_getD {α : Type} {o : Option α} (d : α) (h : o.isSome = true) :
    o = some (o.getD d) := by
  cases o with
  | none => cases h
  | some x => rfl

theorem demo_session_reachable : Reachable demo_base demo_session :=
  reachable_run [Op.alloc 64, Op.alloc 128] (Reachable.init (by decide))
    (eq_some_getD (init_session demo_base) (by decide))

theorem find_free_block_empty (base : Nat) (s : HmmState) (size : Nat)
    (h : s.free_list_head = NULL) : find_free_block base s size = some NULL := by
  unfold find_free_block
  rw [h, HEAP_SIZE_eq]
  show find_free_block_from base s size (104857599 + 1) NULL = some NULL
  simp [find_free_block_from]

theorem to_intptr_small (n : Nat) (h : n < 2 ^ 63) : to_intptr n = (n : Int) := by
  unfold to_intptr
  have : n % WORD = n := Nat.mod_eq_of_lt (by rw [WORD_eq]; omega)
  rw [this, if_pos h]

theorem sbrk_simulate_grow (base : Nat) (s : HmmState) (req : Nat) (hb : base_ok base)
    (h0 : 0 < req) (hlo : base ≤ s.program_break)
    (hhi : s.program_break + req ≤ base + HEAP_SIZE) :
    sbrk_simulate base s (to_intptr req)
      = ({ s with program_break := s.program_break + req
                  program_break_increments := uadd s.program_break_increments 1 },
         s.program_break) := by
  obtain ⟨hb0, hb1⟩ := hb
  rw [HEAP_SIZE_eq] at *
  rw [WORD_eq] at hb1
  rw [to_intptr_small req (by omega)]
  have hnb : (((s.program_break : Int) + (req : Int)) % (WORD : Int)).toNat
      = s.program_break + req := by
    rw [WORD_eq]
    omega
  simp only [sbrk_simulate, hnb, HEAP_SIZE_eq]
  rw [if_neg (by omega), if_pos (by omega)]

theorem alloc_init (base n : Nat) (hb : base_ok base) (hn : 0 < n)
    (hfit : max (ALIGN n + HEADER_SIZE) MIN_ALLOC_SIZE ≤ HEAP_SIZE) :
    (HmmAlloc base (init_state base) n).map
        (fun r => (r.2, r.1.program_break, r.1.program_break_increments))
      = some (base + HEADER_SIZE, base + max (ALIGN n + HEADER_SIZE) MIN_ALLOC_SIZE, 1) := by
  have hb2 := hb
  obtain ⟨hb0, hb1⟩ := hb2
  rw [HEADER_SIZE_eq, HEAP_SIZE_eq] at *
  rw [WORD_eq] at hb1
  simp only [MIN_ALLOC_SIZE] at *
  generalize hsz : ALIGN n = size at *
  have hsz1 : size + 48 ≤ 104857600 := le_trans (le_max_left _ _) hfit
  have hu : uadd size 48 = size + 48 := by
    unfold uadd; rw [WORD_eq]; omega
  have hreq : (if size + 48 > 4096 then size + 48 else 4096) = max (size + 48) 4096 := by
    split <;> omega
  unfold HmmAlloc
  rw [if_neg (by omega)]
  simp only [Option.bind_eq_bind, hsz, find_free_block_empty base (init_state base) size rfl,
    Option.some_bind, ne_eq, not_true_eq_false, if_false, HEADER_SIZE_eq, hu, MIN_ALLOC_SIZE, hreq]
  generalize hr : max (size + 48) 4096 = req at *
  have hr1 : 4096 ≤ req := by omega
  have hr2 : size + 48 ≤ req := by omega
  rw [sbrk_simulate_grow base (init_state base) req hb (by omega) (le_refl _)
    (by simp only [init_state, HEAP_SIZE_eq]; omega)]
  have hin : inHeap base base := by
    unfold inHeap sizeof_block_header_t
    rw [HEAP_SIZE_eq]; omega
  have hnf : base ≠ SBRK_FAILED := by
    unfold SBRK_FAILED; rw [WORD_eq]; omega
  have hu1 : uadd base 48 = base + 48 := by
    unfold uadd; rw [WORD_eq]; omega
  have hu2 : uadd (base + 48) size = base + 48 + size := by
    unfold uadd; rw [WORD_eq]; omega
  have hu3 : usub req 48 = req - 48 := by
    unfold usub; rw [WORD_eq]; omega
  have hu4 : uadd (size + 48) ALIGNMENT = size + 64 := by
    unfold uadd ALIGNMENT; rw [WORD_eq]; omega
  have hu6 : uadd 0 1 = 1 := by decide
  have hreq2 : req ≤ 104857600 := by omega
  have hm1 : (req - 48) % WORD = req - 48 := Nat.mod_eq_of_lt (by rw [WORD_eq]; omega)
  have hm2 : MAGIC_NUMBER % 2 ^ 32 = MAGIC_NUMBER := by decide
  have hm3 : NULL % WORD = NULL := by decide
  by_cases hsp : size + 64 ≤ req - 48
  · have hu5 : usub (usub (req - 48) size) 48 = req - 48 - size - 48 := by
      unfold usub; rw [WORD_eq]; omega
    have hin2 : inHeap base (base + 48 + size) := by
      unfold inHeap sizeof_block_header_t
      rw [HEAP_SIZE_eq]; omega
    have hne3 : base + 48 + size ≠ NULL := by unfold NULL; omega
    have hap : base + 40 ≤ base + 48 + size ∨ base + 48 + size + 40 ≤ base := by omega
    have hap2 : base + 48 + size + 40 ≤ base ∨ base + 40 ≤ base + 48 + size := by omega
    have hm4 : (base + 48 + size) % WORD = base + 48 + size :=
      Nat.mod_eq_of_lt (by rw [WORD_eq]; omega)
    have hm5 : base % WORD = base := Nat.mod_eq_of_lt (by rw [WORD_eq]; omega)
    have far1 : ∀ (s : HmmState) (off n v : Nat), 0 < n → off + n ≤ 40 →
        (poke s (base + 48 + size + off) n v).heap base = s.heap base :=
      fun s off n v h1 h2 => heap_poke_apart s _ off n v base h1 h2 hap
    have far2 : ∀ (s : HmmState) (off n v : Nat), 0 < n → off + n ≤ 40 →
        (poke s (base + off) n v).heap (base + 48 + size) = s.heap (base + 48 + size) :=
      fun s off n v h1 h2 => heap_poke_apart s _ off n v _ h1 h2 hap2
    have far3 : ∀ (s : HmmState) (v : Nat),
        (poke s (base + 48 + size) 8 v).heap base = s.heap base :=
      fun s v => heap_poke_apart_size s _ v base hap
    have far4 : ∀ (s : HmmState) (v : Nat),
        (poke s base 8 v).heap (base + 48 + size) = s.heap (base + 48 + size) :=
      fun s v => heap_poke_apart_size s _ v _ hap2
    simp [init_state, hnf, store_size, store_is_free, store_next, store_prev,
      store_magic, hin, hin2, heap_poke_size, heap_poke_is_free, heap_poke_next, heap_poke_prev,
      heap_poke_magic, poke_free_list_head, poke_program_break,
      poke_program_break_increments, far1, far2, far3, far4, hm1, hm2, hm3, hm4, hm5,
      of_int_zero, of_int_one, to_int_zero, to_int_one, split_block, load,
      hu, hu1, hu2, hu3, hu4, hu5, hu6, hsp, hne3, add_to_free_list, count_alloc,
      HEADER_SIZE_eq]
  · simp [init_state, hnf, store_size, store_is_free, store_next, store_prev,
      store_magic, hin, heap_poke_size, heap_poke_is_free, heap_poke_next, heap_poke_prev,
      heap_poke_magic, poke_free_list_head, poke_program_break,
      poke_program_break_increments, hm1, hm2, hm3,
      of_int_zero, of_int_one, to_int_zero, to_int_one, split_block, load,
      hu, hu1, hu2, hu3, hu4, hu6, hsp, add_to_free_list, count_alloc, HEADER_SIZE_eq]

/-! ## The claims -/

/-- Claim C1 fails on the code.  In the initial state the request `n = 2 ^ 64 - 1` is rounded by
`ALIGN` to `0` because the addition wraps; `HmmAlloc` grows the arena by one chunk, splits it and
returns the non-null handle `base + 48`, and the block behind that handle has payload size `0`,
less than `n`. -/
theorem C1_wrapped_request_gets_empty_block :
    ALIGN (2 ^ 64 - 1) = 0 ∧
    (HmmAlloc demo_base (init_state demo_base) (2 ^ 64 - 1)).map
        (fun r => (r.2, (r.1.heap (usub r.2 HEADER_SIZE)).size, r.1.program_break))
      = some (demo_base + 48, 0, demo_base + 4096) := by
  decide

/-- Claim C2 fails on the code.  After `HmmAlloc(64)` and `HmmAlloc(5000)` (handles `base + 48`
and `base + 4144`, break at `base + 9152`) the request `2 ^ 64 - 4144` makes the growth request
`2 ^ 64 - 4096`, which `sbrk_simulate` receives as the increment `-4096`: the break moves back to
`base + 5056`.  The next `HmmAlloc(8000)` grows the arena from there and returns `base + 5104`
with payload size `8000`; that payload starts inside the payload `[base + 4144, base + 9152)` of
the second handle, which the client still holds. -/
theorem C2_live_regions_overlap :
    (run demo_base (init_session demo_base)
        [Op.alloc 64, Op.alloc 5000, Op.alloc (2 ^ 64 - 4144)]).map
        (fun c => (c.live, c.state.program_break,
          (c.state.heap (usub (demo_base + 4144) HEADER_SIZE)).size))
      = some ([demo_base + 9200, demo_base + 4144, demo_base + 48], demo_base + 5056, 5008) ∧
    (run demo_base (init_session demo_base)
        [Op.alloc 64, Op.alloc 5000, Op.alloc (2 ^ 64 - 4144), Op.alloc 8000]).map
        (fun c => (c.live, c.state.program_break,
          (c.state.heap (usub (demo_base + 4144) HEADER_SIZE)).size,
          (c.state.heap (usub (demo_base + 5104) HEADER_SIZE)).size))
      = some ([demo_base + 5104, demo_base + 9200, demo_base + 4144, demo_base + 48],
          demo_base + 13104, 5008, 8000) ∧
    demo_base + 4144 < demo_base + 5104 ∧ demo_base + 5104 < demo_base + 4144 + 5008 := by
  decide

/-- Claim C3 fails on the code.  After `HmmAlloc(64)` the free list holds the remainder of the
first chunk at `base + 112`, of payload size 3936.  The request `2 ^ 64 - 4064` reaches
`sbrk_simulate` as the increment `-4016` and moves the break back to `base + 80`.  The next
request, `HmmAlloc(5000)`, finds no fit and builds its header at `base + 80`; the `magic` field of
that header lies at `base + 80 + 32`, on the low four bytes of the `size` field of the listed
header at `base + 112`, whose size thereby becomes `0xDEADBEEF`.  In the state so reached,
`HmmAlloc(0xDEADBEE0)` finds the listed block, does not split it and returns the non-null handle
`base + 160`; the payload size stored in the header in front of it is `0xDEADBEEF`, which is 15
modulo the alignment unit.  (The handle itself lies at a multiple of 16 from the arena base.) -/
theorem C3_block_size_not_aligned :
    (run demo_base (init_session demo_base) [Op.alloc 64, Op.alloc (2 ^ 64 - 4064)]).map
        (fun c => (c.live, c.state.program_break, c.state.free_list_head,
          c.state.heap (demo_base + 112)))
      = some ([demo_base + 4144, demo_base + 48], demo_base + 80, demo_base + 112,
          { size := 3936, is_free := 1, next := NULL, prev := NULL, magic := MAGIC_NUMBER }) ∧
    (run demo_base (init_session demo_base)
        [Op.alloc 64, Op.alloc (2 ^ 64 - 4064), Op.alloc 5000]).map
        (fun c => (c.live, c.state.program_break, c.state.free_list_head,
          c.state.heap (demo_base + 80), c.state.heap (demo_base + 112)))
      = some ([demo_base + 128, demo_base + 4144, demo_base + 48], demo_base + 5136,
          demo_base + 112,
          { size := 5008, is_free := 0, next := NULL, prev := NULL, magic := MAGIC_NUMBER },
          { size := 0xDEADBEEF, is_free := 1, next := NULL, prev := NULL,
            magic := MAGIC_NUMBER }) ∧
    Reachable demo_base demo_overlap ∧ 0 < 0xDEADBEE0 ∧
    (HmmAlloc demo_base demo_overlap.state 0xDEADBEE0).map
        (fun r => (r.2, (r.1.heap (usub r.2 HEADER_SIZE)).size))
      = some (demo_base + 160, 0xDEADBEEF) ∧
    demo_base + 160 ≠ NULL ∧ 0xDEADBEEF % ALIGNMENT = 15 ∧
    (((demo_base + 160 : Nat) : Int) - (demo_base : Int)) % (ALIGNMENT : Int) = 0 :=
  ⟨by decide, by decide,
    reachable_run [Op.alloc 64, Op.alloc (2 ^ 64 - 4064), Op.alloc 5000]
      (Reachable.init (by decide)) (eq_some_getD (init_session demo_base) (by decide)),
    by decide, by decide, by decide, by decide, by decide⟩

/-- Claim C4 fails on the code.  With `a = 64` and `b = 128` the two blocks are carved back to
back from the first chunk (handles `base + 48` and `base + 160`, the header of the second at
`base + 112` where the payload of the first ends).  Released in the order A, B the two blocks are
not merged (`coalesce` looks at the free-list neighbours, and the list predecessor of the block
just inserted at the head is `NULL`), so `HmmAlloc(240)` finds no fit, advances the break from
`base + 4096` to `base + 8192` and returns `base + 4144`.  Released in the order B, A the second
`HmmFree` merges B into A, unlinks B and then reads `block->next->next` through the null
`block->next`: the call has no defined result. -/
theorem C4_coalescing_fails :
    ALIGN 64 + ALIGN 128 + HEADER_SIZE = 240 ∧
    (run demo_base (init_session demo_base) [Op.alloc 64, Op.alloc 128]).map
        (fun c => (c.live, c.state.program_break))
      = some ([demo_base + 160, demo_base + 48], demo_base + 4096) ∧
    (run demo_base (init_session demo_base)
        [Op.alloc 64, Op.alloc 128, Op.free (demo_base + 48), Op.free (demo_base + 160),
          Op.alloc 240]).map (fun c => (c.live, c.state.program_break))
      = some ([demo_base + 4144], demo_base + 8192) ∧
    (run demo_base (init_session demo_base)
        [Op.alloc 64, Op.alloc 128, Op.free (demo_base + 160)]).map (fun c => c.live)
      = some [demo_base + 48] ∧
    (run demo_base (init_session demo_base)
        [Op.alloc 64, Op.alloc 128, Op.free (demo_base + 160), Op.free (demo_base + 48)]).isSome
      = false := by
  decide

/-- Claim C5 fails on the code.  With `a = 64` and `b = 5000` the second request does not fit
the remainder of the first chunk, so the arena grows by exactly `5008 + 48` bytes and the free
list still holds only that remainder, which starts where the payload of the first block ends.
`HmmFree` of the first handle then merges the remainder into the block, unlinks it and reads
`block->next->next` through the null `block->next`: the call has no defined result, and the
final `HmmAlloc(50)` is never reached. -/
theorem C5_release_before_reuse_faults :
    (run demo_base (init_session demo_base) [Op.alloc 64, Op.alloc 5000]).map
        (fun c => (c.live, c.state.free_list_head, c.state.program_break))
      = some ([demo_base + 4144, demo_base + 48], demo_base + 112, demo_base + 9152) ∧
    (run demo_base (init_session demo_base)
        [Op.alloc 64, Op.alloc 5000, Op.free (demo_base + 48)]).isSome = false := by
  decide

/-- Claim C6 fails on the code, in two ways.  At the smallest live handle, `h = HmmAlloc(64)`
`= base + 48` in the initial state, the first `HmmFree(h)` has no defined result (it merges the
remainder of the chunk into the block and then reads `block->next->next` through the null
`block->next`), so the second `HmmFree(h)` is never reached.  And after `HmmAlloc(4049)`,
`HmmAlloc(2 ^ 64 - 4144)`, which moves the break back to `base + 16`, and `HmmAlloc(16)`, which
builds its header at `base + 16`, the `next` field of that header lies on the `magic` field of the
header at `base` of the first block, which the client still holds: the tag is gone, and both
`HmmFree(base + 48)` return on the invalid-pointer branch, the second not on the double-free
branch. -/
theorem C6_second_release_not_double_free :
    (run demo_base (init_session demo_base) [Op.alloc 64]).map (fun c => c.live)
      = some [demo_base + 48] ∧
    ((run demo_base (init_session demo_base) [Op.alloc 64]).bind fun c =>
      HmmFree demo_base c.state (demo_base + 48)).isSome = false ∧
    ((run demo_base (init_session demo_base) [Op.alloc 64]).bind fun c =>
      (HmmFree demo_base c.state (demo_base + 48)).bind fun r =>
        HmmFree demo_base r.1 (demo_base + 48)).isSome = false ∧
    (run demo_base (init_session demo_base) [Op.alloc 4049, Op.alloc (2 ^ 64 - 4144)]).map
        (fun c => (c.live, c.state.program_break, (c.state.heap demo_base).magic))
      = some ([demo_base + 4160, demo_base + 48], demo_base + 16, MAGIC_NUMBER) ∧
    Reachable demo_base demo_untagged ∧ demo_base + 48 ∈ demo_untagged.live ∧
    (demo_untagged.state.heap (demo_base + 16)).next = demo_base + 80 ∧
    (demo_untagged.state.heap demo_base).magic = demo_base + 80 ∧
    ((HmmFree demo_base demo_untagged.state (demo_base + 48)).bind fun r =>
      (HmmFree demo_base r.1 (demo_base + 48)).map fun r2 => (r.2, r2.2))
      = some (Diag.invalid_pointer, Diag.invalid_pointer) :=
  ⟨by decide, by decide, by decide, by decide,
    reachable_run [Op.alloc 4049, Op.alloc (2 ^ 64 - 4144), Op.alloc 16]
      (Reachable.init (by decide)) (eq_some_getD (init_session demo_base) (by decide)),
    by decide, by decide, by decide, by decide⟩

/-- Claim C7 fails on the code.  After `HmmAlloc(64)` the request `2 ^ 64 - 4144` reaches
`sbrk_simulate` as the increment `-4096` and yields a block at `base + 4096` of payload size
`2 ^ 64 - 4144`; once released, that block is on the free list.  `HmmAlloc(HEAP_SIZE + 1)` then
finds it (its size is at least `ALIGN(HEAP_SIZE + 1)`) and `split_block` writes a header at
`base + 4096 + 48 + ALIGN(HEAP_SIZE + 1)`, beyond the end of the array: the call does not
return null with the state unchanged, it has no defined result. -/
theorem C7_oversized_request_finds_block :
    (run demo_base (init_session demo_base)
        [Op.alloc 64, Op.alloc (2 ^ 64 - 4144), Op.free (demo_base + 4144)]).map
        (fun c => (c.state.free_list_head, (c.state.heap (demo_base + 4096)).size,
          find_free_block demo_base c.state (ALIGN (HEAP_SIZE + 1))))
      = some (demo_base + 4096, 2 ^ 64 - 4144, some (demo_base + 4096)) ∧
    ((run demo_base (init_session demo_base)
        [Op.alloc 64, Op.alloc (2 ^ 64 - 4144), Op.free (demo_base + 4144)]).bind
        (fun c => HmmAlloc demo_base c.state (HEAP_SIZE + 1))).isSome = false := by
  decide

/-- Claim C8.  In every state, `HmmAlloc(0)` returns null and leaves the whole allocator state
unchanged. -/
theorem C8_alloc_zero (base : Nat) (s : HmmState) : HmmAlloc base s 0 = some (s, NULL) := by
  simp [HmmAlloc]

/-- Claim C9.  In every state, for every non-null handle whose header (the `HEADER_SIZE` bytes in
front of the handle, inside the array) carries a tag different from `MAGIC_NUMBER`, `HmmFree`
returns on the invalid-pointer branch with the whole allocator state unchanged. -/
theorem C9_invalid_handle (base : Nat) (s : HmmState) (ptr : Nat)
    (hnull : ptr ≠ NULL) (hin : inHeap base (usub ptr HEADER_SIZE))
    (htag : (s.heap (usub ptr HEADER_SIZE)).magic ≠ MAGIC_NUMBER) :
    HmmFree base s ptr = some (s, Diag.invalid_pointer) := by
  simp [HmmFree, hnull, load, hin, htag]

/-- Witness for C9: the handle `base + 48` in the initial state, where no header is tagged. -/
theorem C9_invalid_handle_witness :
    demo_base + 48 ≠ NULL ∧ inHeap demo_base (usub (demo_base + 48) HEADER_SIZE) ∧
      ((init_state demo_base).heap (usub (demo_base + 48) HEADER_SIZE)).magic ≠ MAGIC_NUMBER ∧
      HmmFree demo_base (init_state demo_base) (demo_base + 48)
        = some (init_state demo_base, Diag.invalid_pointer) :=
  ⟨by decide, by decide, by decide,
    C9_invalid_handle demo_base (init_state demo_base) (demo_base + 48)
      (by decide) (by decide) (by decide)⟩

/-- Claim C10 as stated fails on the code: the first `HmmAlloc(n)` after a reset does not always
grow the arena.  For `n = 0` and for `n = HEAP_SIZE + 1` it returns null, the break stays at the
arena base and the growth-event counter stays `0`. -/
theorem C10_first_alloc_may_not_grow :
    (HmmAlloc demo_base (HmmReset demo_base demo_session.state) 0).map
        (fun r => (r.2, r.1.program_break, r.1.program_break_increments))
      = some (NULL, demo_base, 0) ∧
    (HmmAlloc demo_base (HmmReset demo_base demo_session.state) (HEAP_SIZE + 1)).map
        (fun r => (r.2, r.1.program_break, r.1.program_break_increments))
      = some (NULL, demo_base, 0) := by
  decide

/-- Claim C10, amended.  The state after `HmmReset` equals the initial state (break at the arena
base, empty free list, all five counters zero, all headers zero), so every sequence `ops` of
calls run after a reset gives the same result as on a freshly initialised system; and for `n > 0`
whose growth request `max(ALIGN(n) + HEADER_SIZE, 4096)` does not exceed `HEAP_SIZE`, the first
`HmmAlloc(n)` after a reset returns `base + HEADER_SIZE`, grows the arena by that amount and sets
the growth-event counter to `1`. -/
theorem C10_reset_restores_initial_state (base : Nat) (s : HmmState) (ops : List Op) (n : Nat)
    (hb : base_ok base) (hn : 0 < n)
    (hfit : max (ALIGN n + HEADER_SIZE) MIN_ALLOC_SIZE ≤ HEAP_SIZE) :
    HmmReset base s = init_state base ∧
    run base { state := HmmReset base s, live := [] } ops = run base (init_session base) ops ∧
    (HmmAlloc base (HmmReset base s) n).map
        (fun r => (r.2, r.1.program_break, r.1.program_break_increments))
      = some (base + HEADER_SIZE, base + max (ALIGN n + HEADER_SIZE) MIN_ALLOC_SIZE, 1) :=
  ⟨rfl, rfl, alloc_init base n hb hn hfit⟩

/-- Witness for C10: a reset of `demo_session`, compared with a fresh system on the calls
`HmmAlloc(64)`, `HmmAlloc(128)`, `HmmFree(base + 48)`, and followed by `HmmAlloc(64)`. -/
theorem C10_reset_restores_initial_state_witness :
    base_ok demo_base ∧ 0 < 64 ∧ max (ALIGN 64 + HEADER_SIZE) MIN_ALLOC_SIZE ≤ HEAP_SIZE ∧
    HmmReset demo_base demo_session.state = init_state demo_base ∧
    run demo_base { state := HmmReset demo_base demo_session.state, live := [] }
        [Op.alloc 64, Op.alloc 128, Op.free (demo_base + 48)]
      = run demo_base (init_session demo_base)
        [Op.alloc 64, Op.alloc 128, Op.free (demo_base + 48)] ∧
    (HmmAlloc demo_base (HmmReset demo_base demo_session.state) 64).map
        (fun r => (r.2, r.1.program_break, r.1.program_break_increments))
      = some (demo_base + HEADER_SIZE,
          demo_base + max (ALIGN 64 + HEADER_SIZE) MIN_ALLOC_SIZE, 1) :=
  ⟨by decide, by decide, by decide,
    C10_reset_restores_initial_state demo_base demo_session.state
      [Op.alloc 64, Op.alloc 128, Op.free (demo_base + 48)] 64
      (by decide) (by decide) (by decide)⟩

/-! ## Free lists -/

theorem free_list_from_unique {base : Nat} {s : HmmState} :
    ∀ (l1 l2 : List Nat) (p : Nat),
      free_list_from base s p l1 → free_list_from base s p l2 → l1 = l2 := by
  intro l1
  induction l1 with
  | nil =>
    intro l2 p h1 h2
    cases l2 with
    | nil => rfl
    | cons b l2 =>
      simp only [free_list_from] at h1 h2
      exact absurd (h2.1.symm.trans h1) h2.2.1
  | cons a l1 ih =>
    intro l2 p h1 h2
    cases l2 with
    | nil =>
      simp only [free_list_from] at h1 h2
      exact absurd (h1.1.symm.trans h2) h1.2.1
    | cons b l2 =>
      simp only [free_list_from] at h1 h2
      have hab : a = b := h1.1.symm.trans h2.1
      subst hab
      rw [ih l2 _ h1.2.2.2.2.2 h2.2.2.2.2.2]

theorem free_list_from_suffix {base : Nat} {s : HmmState} :
    ∀ (pre : List Nat) (p a : Nat) (post : List Nat),
      free_list_from base s p (pre ++ a :: post) → free_list_from base s a (a :: post) := by
  intro pre
  induction pre with
  | nil =>
    intro p a post h
    simp only [List.nil_append, free_list_from] at h
    exact ⟨rfl, h.2⟩
  | cons x pre ih =>
    intro p a post h
    simp only [List.cons_append, free_list_from] at h
    exact ih _ a post h.2.2.2.2.2

theorem free_list_from_nodup {base : Nat} {s : HmmState} :
    ∀ (l : List Nat) (p : Nat), free_list_from base s p l → l.Nodup := by
  intro l
  induction l with
  | nil => intro p _; exact List.nodup_nil
  | cons a l ih =>
    intro p h
    have h0 := h
    simp only [free_list_from] at h
    refine List.nodup_cons.2 ⟨fun hmem => ?_, ih _ h.2.2.2.2.2⟩
    obtain ⟨pre, post, hl⟩ := List.append_of_mem hmem
    have h1 : free_list_from base s a (a :: post) := by
      have := h.2.2.2.2.2
      rw [hl] at this
      exact free_list_from_suffix pre _ a post this
    have h2 : free_list_from base s a (a :: l) := by
      have hp := h.1
      subst hp
      exact h0
    have := free_list_from_unique _ _ _ h1 h2
    have hlen := congrArg List.length this
    rw [hl] at hlen
    simp at hlen
    omega

theorem free_list_from_inHeap {base : Nat} {s : HmmState} :
    ∀ (l : List Nat) (p : Nat), free_list_from base s p l → ∀ a ∈ l, inHeap base a := by
  intro l
  induction l with
  | nil => intro p _ a ha; cases ha
  | cons x l ih =>
    intro p h a ha
    simp only [free_list_from] at h
    rcases List.mem_cons.1 ha with rfl | ha
    · exact h.2.2.1
    · exact ih _ h.2.2.2.2.2 a ha

/-- A well-formed free list is shorter than the iteration bound of `find_free_block`: its
addresses are distinct headers inside the array. -/
theorem free_list_from_length {base : Nat} {s : HmmState} {p : Nat} {l : List Nat}
    (h : free_list_from base s p l) : l.length < HEAP_SIZE := by
  have hnd := free_list_from_nodup l p h
  have hin := free_list_from_inHeap l p h
  have hsub : l.toFinset ⊆ Finset.Icc base (base + HEAP_SIZE - sizeof_block_header_t) := by
    intro a ha
    have := hin a (List.mem_toFinset.1 ha)
    unfold inHeap at this
    rw [Finset.mem_Icc]
    omega
  have hcard := Finset.card_le_card hsub
  rw [List.toFinset_card_of_nodup hnd, Nat.card_Icc] at hcard
  unfold sizeof_block_header_t at hcard
  rw [HEAP_SIZE_eq] at *
  omega

theorem find_free_block_from_first_fit {base : Nat} {s : HmmState} {size : Nat} :
    ∀ (l : List Nat) (fuel p : Nat), free_list_from base s p l → l.length < fuel →
      find_free_block_from base s size fuel p = some (first_fit s size l) := by
  intro l
  induction l with
  | nil =>
    intro fuel p h hf
    simp only [free_list_from] at h
    cases fuel with
    | zero => cases hf
    | succ f => simp [find_free_block_from, h, first_fit]
  | cons a l ih =>
    intro fuel p h hf
    simp only [free_list_from] at h
    obtain ⟨rfl, hnn, hin, hm, hfree, hrest⟩ := h
    cases fuel with
    | zero => cases hf
    | succ f =>
      have hf1 : l.length < f := by simpa using hf
      unfold find_free_block_from
      rw [if_neg hnn]
      simp only [load, if_pos hin]
      rw [if_neg (not_not.2 hm)]
      by_cases hfit : size ≤ (s.heap p).size
      · rw [if_pos ⟨hfree, hfit⟩]
        simp [first_fit, hfit]
      · rw [if_neg (fun hc => hfit hc.2), ih f _ hrest hf1]
        simp [first_fit, hfit]

theorem free_list_from_mem {base : Nat} {s : HmmState} :
    ∀ (l : List Nat) (p : Nat), free_list_from base s p l → ∀ a ∈ l,
      a ≠ NULL ∧ inHeap base a ∧ (s.heap a).magic = MAGIC_NUMBER ∧ (s.heap a).is_free ≠ 0 := by
  intro l
  induction l with
  | nil => intro p _ a ha; cases ha
  | cons x l ih =>
    intro p h a ha
    simp only [free_list_from] at h
    rcases List.mem_cons.1 ha with rfl | ha
    · exact ⟨h.2.1, h.2.2.1, h.2.2.2.1, h.2.2.2.2.1⟩
    · exact ih _ h.2.2.2.2.2 a ha

theorem first_fit_spec {base : Nat} {s : HmmState} {p : Nat} (size : Nat) {l : List Nat}
    (hl : free_list_from base s p l) :
    (first_fit s size l = NULL ↔ ∀ a ∈ l, (s.heap a).size < size) ∧
    (first_fit s size l ≠ NULL → ∃ pre post, l = pre ++ first_fit s size l :: post ∧
        (∀ a ∈ pre, (s.heap a).size < size) ∧ size ≤ (s.heap (first_fit s size l)).size) := by
  unfold first_fit
  cases hfind : l.find? (fun a => decide (size ≤ (s.heap a).size)) with
  | none =>
    rw [List.find?_eq_none] at hfind
    simp only [Option.getD_none, ne_eq, not_true_eq_false, false_implies, and_true, true_iff]
    intro a ha
    have := hfind a ha
    simpa using this
  | some r =>
    rw [List.find?_eq_some] at hfind
    obtain ⟨hr, pre, post, hl1, hpre⟩ := hfind
    have hrl : r ∈ l := by rw [hl1]; simp
    have hrn := (free_list_from_mem l p hl r hrl).1
    simp only [Option.getD_some]
    refine ⟨⟨fun h => absurd h hrn, fun h => ?_⟩, fun _ => ⟨pre, post, hl1, ?_, ?_⟩⟩
    · have := h r hrl
      have hr2 : size ≤ (s.heap r).size := by simpa using hr
      omega
    · intro a ha
      have := hpre a ha
      simpa using this
    · simpa using hr

theorem free_list_from_congr {base : Nat} {s s1 : HmmState} :
    ∀ (l : List Nat) (p : Nat),
      (∀ a ∈ l, (s1.heap a).next = (s.heap a).next ∧ (s1.heap a).magic = (s.heap a).magic ∧
        (s1.heap a).is_free = (s.heap a).is_free) →
      free_list_from base s p l → free_list_from base s1 p l := by
  intro l
  induction l with
  | nil => intro p _ h; exact h
  | cons x l ih =>
    intro p hsame h
    simp only [free_list_from] at h ⊢
    obtain ⟨h1, h2, h3⟩ := hsame x (List.mem_cons_self x l)
    refine ⟨h.1, h.2.1, h.2.2.1, h2.trans h.2.2.2.1, by rw [h3]; exact h.2.2.2.2.1, ?_⟩
    rw [h1]
    exact ih _ (fun a ha => hsame a (List.mem_cons_of_mem x ha)) h.2.2.2.2.2

/-- Insertion is at the head: `add_to_free_list` of a tagged free block gives the well-formed
list `block :: l` when `l` is the well-formed list before the call and no two of the headers
`block :: l` share a byte. -/
theorem add_to_free_list_inserts_at_head {base : Nat} {s s1 : HmmState} {block : Nat}
    {l : List Nat} (hb : base_ok base) (hl : free_list_from base s s.free_list_head l)
    (hsep : (block :: l).Pairwise apart)
    (hnn : block ≠ NULL) (hm : (s.heap block).magic = MAGIC_NUMBER)
    (hf : (s.heap block).is_free ≠ 0) (h : add_to_free_list base s block = some s1) :
    free_list_from base s1 s1.free_list_head (block :: l) := by
  rw [List.pairwise_cons] at hsep
  obtain ⟨hbl, hll⟩ := hsep
  have hfar : ∀ a ∈ l, a + 40 ≤ block ∨ block + 40 ≤ a := by
    intro a ha
    have := hbl a ha
    unfold apart sizeof_block_header_t at this
    omega
  have hhead : s.free_list_head % WORD = s.free_list_head := by
    apply Nat.mod_eq_of_lt
    cases l with
    | nil =>
      simp only [free_list_from] at hl
      rw [hl]; decide
    | cons x l =>
      simp only [free_list_from] at hl
      have h1 := hl.2.2.1
      unfold inHeap at h1
      unfold base_ok at hb
      rw [hl.1]
      omega
  unfold add_to_free_list at h
  simp only [Option.bind_eq_bind, Option.bind_eq_some] at h
  obtain ⟨t1, h1, t2, h2, t3, h3, h4⟩ := h
  obtain ⟨hin, rfl⟩ := store_next_eq_some.1 h1
  obtain ⟨-, rfl⟩ := store_prev_eq_some.1 h2
  have hblock2 : (poke (poke s (block + 16) 8 s.free_list_head) (block + 24) 8 NULL).heap block
      = { s.heap block with next := s.free_list_head, prev := NULL } := by
    rw [heap_poke_prev, heap_poke_next, hhead]
    rfl
  have hlist2 : ∀ a ∈ l,
      (poke (poke s (block + 16) 8 s.free_list_head) (block + 24) 8 NULL).heap a = s.heap a := by
    intro a ha
    rw [heap_poke_apart_prev _ _ _ a (hfar a ha), heap_poke_apart_next _ _ _ a (hfar a ha)]
  have key : (t3.heap block).next = s.free_list_head ∧
      (t3.heap block).magic = (s.heap block).magic ∧
      (t3.heap block).is_free = (s.heap block).is_free ∧
      ∀ a ∈ l, (t3.heap a).next = (s.heap a).next ∧ (t3.heap a).magic = (s.heap a).magic ∧
        (t3.heap a).is_free = (s.heap a).is_free := by
    simp only [poke_free_list_head] at h3
    rcases ite_some_cases h3 with ⟨hc, h3⟩ | ⟨-, h3⟩
    · obtain ⟨-, rfl⟩ := store_prev_eq_some.1 h3
      have hc1 : s.free_list_head ≠ NULL := hc
      cases l with
      | nil =>
        simp only [free_list_from] at hl
        exact absurd hl hc1
      | cons x l =>
        simp only [free_list_from] at hl
        have hx : s.free_list_head = x := hl.1
        have hxb := hfar x (List.mem_cons_self x l)
        rw [List.pairwise_cons] at hll
        have e1 : (poke (poke (poke s (block + 16) 8 s.free_list_head) (block + 24) 8 NULL)
            (s.free_list_head + 24) 8 block).heap block
              = { s.heap block with next := s.free_list_head, prev := NULL } := by
          rw [heap_poke_apart_prev _ _ _ block (by rw [hx]; omega), hblock2]
        refine ⟨by rw [e1], by rw [e1], by rw [e1], fun a ha => ?_⟩
        rcases List.mem_cons.1 ha with hax | ha1
        · have hmem : s.free_list_head ∈ x :: l := by rw [hx]; exact List.mem_cons_self x l
          have e2 : (poke (poke (poke s (block + 16) 8 s.free_list_head) (block + 24) 8 NULL)
              (s.free_list_head + 24) 8 block).heap s.free_list_head
                = { s.heap s.free_list_head with prev := block % WORD } := by
            rw [heap_poke_prev, hlist2 _ hmem]
          rw [hax, ← hx, e2]
          exact ⟨rfl, rfl, rfl⟩
        · have hxa := hll.1 a ha1
          unfold apart sizeof_block_header_t at hxa
          have e3 : (poke (poke (poke s (block + 16) 8 s.free_list_head) (block + 24) 8 NULL)
              (s.free_list_head + 24) 8 block).heap a = s.heap a := by
            rw [heap_poke_apart_prev _ _ _ a (by rw [hx]; omega), hlist2 a ha]
          rw [e3]
          exact ⟨rfl, rfl, rfl⟩
    · cases h3
      refine ⟨by rw [hblock2], by rw [hblock2], by rw [hblock2], fun a ha => ?_⟩
      rw [hlist2 a ha]
      exact ⟨rfl, rfl, rfl⟩
  cases h4
  simp only [free_list_from]
  refine ⟨trivial, hnn, hin, ?_, ?_, ?_⟩
  · show (t3.heap block).magic = MAGIC_NUMBER
    exact key.2.1.trans hm
  · show (t3.heap block).is_free ≠ 0
    rw [key.2.2.1]
    exact hf
  · show free_list_from base _ (t3.heap block).next l
    rw [key.1]
    exact free_list_from_congr l _ key.2.2.2 hl

/-- On a header that is too small and whose `next` link points to itself the scan never ends:
no iteration bound gives a result. -/
theorem find_free_block_from_self_loop {base : Nat} {s : HmmState} {size current : Nat}
    (hnn : current ≠ NULL) (hin : inHeap base current)
    (hm : (s.heap current).magic = MAGIC_NUMBER) (hsmall : (s.heap current).size < size)
    (hloop : (s.heap current).next = current) :
    ∀ fuel : Nat, find_free_block_from base s size fuel current = none := by
  intro fuel
  induction fuel with
  | zero => rfl
  | succ f ih =>
    unfold find_free_block_from
    rw [if_neg hnn]
    simp only [load, if_pos hin]
    rw [if_neg (not_not.2 hm), if_neg (fun hc => by omega), hloop, ih]

theorem demo_two_free_list :
    free_list_from demo_base demo_two_free.state demo_two_free.state.free_list_head
      [demo_base + 112, demo_base] :=
  ⟨by decide, by decide, by decide, by decide, by decide,
    by decide, by decide, by decide, by decide, by decide,
    (by decide : (demo_two_free.state.heap demo_base).next = NULL)⟩

theorem demo_cycle_loops (fuel : Nat) :
    find_free_block_from demo_base demo_cycle.state (ALIGN 6000) fuel
      demo_cycle.state.free_list_head = none :=
  find_free_block_from_self_loop (by decide) (by decide) (by decide) (by decide) (by decide) fuel

/-! ## The break and the counters -/

theorem regs_kept_frame : link_frame regs_kept where
  refl := fun _ => ⟨rfl, rfl, rfl, rfl, rfl, rfl⟩
  trans := fun h1 h2 =>
    ⟨h2.1.trans h1.1, h2.2.1.trans h1.2.1, h2.2.2.1.trans h1.2.2.1,
      h2.2.2.2.1.trans h1.2.2.2.1, h2.2.2.2.2.1.trans h1.2.2.2.2.1,
      h2.2.2.2.2.2.trans h1.2.2.2.2.2⟩
  poke := fun _ _ _ _ => ⟨rfl, rfl, rfl, rfl, rfl, rfl⟩
  head := fun _ _ => ⟨rfl, rfl, rfl, rfl, rfl, rfl⟩

theorem store_size_frame {R : HmmState → HmmState → Prop} (hR : link_frame R) {base : Nat}
    {s s1 : HmmState} {p v : Nat} (h : store_size base s p v = some s1) : R s s1 := by
  obtain ⟨_, rfl⟩ := store_size_eq_some.1 h
  exact hR.poke s _ _ _

theorem store_next_frame {R : HmmState → HmmState → Prop} (hR : link_frame R) {base : Nat}
    {s s1 : HmmState} {p v : Nat} (h : store_next base s p v = some s1) : R s s1 := by
  obtain ⟨_, rfl⟩ := store_next_eq_some.1 h
  exact hR.poke s _ _ _

theorem store_prev_frame {R : HmmState → HmmState → Prop} (hR : link_frame R) {base : Nat}
    {s s1 : HmmState} {p v : Nat} (h : store_prev base s p v = some s1) : R s s1 := by
  obtain ⟨_, rfl⟩ := store_prev_eq_some.1 h
  exact hR.poke s _ _ _

theorem remove_from_free_list_frame {R : HmmState → HmmState → Prop} (hR : link_frame R)
    {base : Nat} {s s1 : HmmState} {block : Nat}
    (h : remove_from_free_list base s block = some s1) : R s s1 := by
  unfold remove_from_free_list at h
  simp only [Option.bind_eq_bind, Option.bind_eq_some] at h
  obtain ⟨b, -, t1, h1, b1, -, t2, h2, t3, h3, h4⟩ := h
  have f1 : R s t1 := by
    rcases ite_some_cases h1 with ⟨-, h1⟩ | ⟨-, h1⟩
    · exact store_next_frame hR h1
    · cases h1; exact hR.head s _
  have f2 : R t1 t2 := by
    rcases ite_some_cases h2 with ⟨-, h2⟩ | ⟨-, h2⟩
    · exact store_prev_frame hR h2
    · cases h2; exact hR.refl _
  exact hR.trans (hR.trans f1 f2) (hR.trans (store_next_frame hR h3) (store_prev_frame hR h4))

theorem add_to_free_list_frame {R : HmmState → HmmState → Prop} (hR : link_frame R)
    {base : Nat} {s s1 : HmmState} {block : Nat}
    (h : add_to_free_list base s block = some s1) : R s s1 := by
  unfold add_to_free_list at h
  simp only [Option.bind_eq_bind, Option.bind_eq_some] at h
  obtain ⟨t1, h1, t2, h2, t3, h3, h4⟩ := h
  have f3 : R t2 t3 := by
    rcases ite_some_cases h3 with ⟨-, h3⟩ | ⟨-, h3⟩
    · exact store_prev_frame hR h3
    · cases h3; exact hR.refl _
  cases h4
  exact hR.trans (hR.trans (hR.trans (store_next_frame hR h1) (store_prev_frame hR h2)) f3)
    (hR.head t3 block)

theorem coalesce_next_frame {R : HmmState → HmmState → Prop} (hR : link_frame R)
    {base : Nat} {s s1 : HmmState} {block : Nat}
    (h : coalesce_next base s block = some s1) : R s s1 := by
  unfold coalesce_next at h
  simp only [Option.bind_eq_bind, Option.bind_eq_some] at h
  obtain ⟨b, -, h⟩ := h
  rcases ite_some_cases h with ⟨-, h⟩ | ⟨-, h⟩
  · simp only [Option.bind_eq_some] at h
    obtain ⟨nx, -, h⟩ := h
    rcases ite_some_cases h with ⟨-, h⟩ | ⟨-, h⟩
    · rcases ite_some_cases h with ⟨-, h⟩ | ⟨-, h⟩
      · simp only [Option.bind_eq_some] at h
        obtain ⟨t1, h1, b1, -, t2, h2, b2, -, nn, -, t3, h3, b3, -, h4⟩ := h
        have f4 : R t3 s1 := by
          rcases ite_some_cases h4 with ⟨-, h4⟩ | ⟨-, h4⟩
          · exact store_prev_frame hR h4
          · cases h4; exact hR.refl _
        exact hR.trans (store_size_frame hR h1)
          (hR.trans (remove_from_free_list_frame hR h2)
          (hR.trans (store_next_frame hR h3) f4))
      · cases h; exact hR.refl _
    · cases h; exact hR.refl _
  · cases h; exact hR.refl _

theorem coalesce_prev_frame {R : HmmState → HmmState → Prop} (hR : link_frame R)
    {base : Nat} {s s1 : HmmState} {block : Nat}
    (h : coalesce_prev base s block = some s1) : R s s1 := by
  unfold coalesce_prev at h
  simp only [Option.bind_eq_bind, Option.bind_eq_some] at h
  obtain ⟨b, -, h⟩ := h
  rcases ite_some_cases h with ⟨-, h⟩ | ⟨-, h⟩
  · simp only [Option.bind_eq_some] at h
    obtain ⟨pv, -, h⟩ := h
    rcases ite_some_cases h with ⟨-, h⟩ | ⟨-, h⟩
    · rcases ite_some_cases h with ⟨-, h⟩ | ⟨-, h⟩
      · simp only [Option.bind_eq_some] at h
        obtain ⟨t1, h1, t2, h2, b2, -, t3, h3, b3, -, h4⟩ := h
        have f4 : R t3 s1 := by
          rcases ite_some_cases h4 with ⟨-, h4⟩ | ⟨-, h4⟩
          · exact store_prev_frame hR h4
          · cases h4; exact hR.refl _
        exact hR.trans (store_size_frame hR h1)
          (hR.trans (remove_from_free_list_frame hR h2)
          (hR.trans (store_next_frame hR h3) f4))
      · cases h; exact hR.refl _
    · cases h; exact hR.refl _
  · cases h; exact hR.refl _

theorem coalesce_frame {R : HmmState → HmmState → Prop} (hR : link_frame R)
    {base : Nat} {s s1 : HmmState} {block : Nat}
    (h : coalesce base s block = some s1) : R s s1 := by
  unfold coalesce at h
  simp only [Option.bind_eq_bind, Option.bind_eq_some] at h
  obtain ⟨t1, h1, h2⟩ := h
  exact hR.trans (coalesce_next_frame hR h1) (coalesce_prev_frame hR h2)

theorem store_is_free_break {base : Nat} {s s1 : HmmState} {p : Nat} {v : Int}
    (h : store_is_free base s p v = some s1) : s1.program_break = s.program_break := by
  obtain ⟨_, rfl⟩ := store_is_free_eq_some.1 h
  rfl

theorem store_magic_break {base : Nat} {s s1 : HmmState} {p v : Nat}
    (h : store_magic base s p v = some s1) : s1.program_break = s.program_break := by
  obtain ⟨_, rfl⟩ := store_magic_eq_some.1 h
  rfl

theorem split_block_break {base : Nat} {s s1 : HmmState} {block size : Nat}
    (h : split_block base s block size = some s1) : s1.program_break = s.program_break := by
  have hR := regs_kept_frame
  unfold split_block at h
  simp only [Option.bind_eq_bind, Option.bind_eq_some] at h
  obtain ⟨b, -, h⟩ := h
  rcases ite_some_cases h with ⟨-, h⟩ | ⟨-, h⟩
  · simp only [Option.bind_eq_some] at h
    obtain ⟨t1, h1, t2, h2, t3, h3, b3, -, t4, h4, t5, h5, b5, -, t6, h6, t7, h7, h8⟩ := h
    have f6 : t6.program_break = t5.program_break := by
      rcases ite_some_cases h6 with ⟨-, h6⟩ | ⟨-, h6⟩
      · exact (store_prev_frame hR h6).1
      · cases h6; rfl
    rw [(store_size_frame hR h8).1, (store_next_frame hR h7).1, f6,
      (store_prev_frame hR h5).1, (store_next_frame hR h4).1, store_magic_break h3,
      store_is_free_break h2, (store_size_frame hR h1).1]
  · cases h; rfl

theorem sbrk_simulate_break_in_arena {base : Nat} {s : HmmState} {inc : Int}
    (h : base ≤ s.program_break ∧ s.program_break ≤ base + HEAP_SIZE) :
    base ≤ (sbrk_simulate base s inc).1.program_break ∧
      (sbrk_simulate base s inc).1.program_break ≤ base + HEAP_SIZE := by
  unfold sbrk_simulate
  simp only
  split
  · exact h
  · rename_i hc
    split
    · simp only; omega
    · simp only; omega

theorem HmmAlloc_break_in_arena {base : Nat} {s s1 : HmmState} {n p : Nat}
    (hs : base ≤ s.program_break ∧ s.program_break ≤ base + HEAP_SIZE)
    (h : HmmAlloc base s n = some (s1, p)) :
    base ≤ s1.program_break ∧ s1.program_break ≤ base + HEAP_SIZE := by
  have hR := regs_kept_frame
  unfold HmmAlloc at h
  by_cases hn : n = 0
  · rw [if_pos hn] at h
    cases h
    exact hs
  rw [if_neg hn] at h
  simp only [Option.bind_eq_bind, Option.bind_eq_some] at h
  obtain ⟨block, -, h⟩ := h
  by_cases c1 : block ≠ NULL
  · rw [if_pos c1] at h
    simp only [Option.bind_eq_some] at h
    obtain ⟨t1, h1, t2, h2, t3, h3, h4⟩ := h
    cases h4
    show base ≤ t3.program_break ∧ t3.program_break ≤ base + HEAP_SIZE
    rw [store_is_free_break h3, split_block_break h2, (remove_from_free_list_frame hR h1).1]
    exact hs
  · rw [if_neg c1] at h
    generalize hreq : (if uadd (ALIGN n) HEADER_SIZE > MIN_ALLOC_SIZE
      then uadd (ALIGN n) HEADER_SIZE else MIN_ALLOC_SIZE) = req at h
    have hr : base ≤ (sbrk_simulate base s (to_intptr req)).1.program_break ∧
        (sbrk_simulate base s (to_intptr req)).1.program_break ≤ base + HEAP_SIZE :=
      sbrk_simulate_break_in_arena hs
    generalize sbrk_simulate base s (to_intptr req) = r at h hr
    by_cases c2 : r.2 = SBRK_FAILED
    · rw [if_pos c2] at h
      cases h
      exact hr
    · rw [if_neg c2] at h
      simp only [Option.bind_eq_some] at h
      obtain ⟨t1, h1, t2, h2, t3, h3, t4, h4, t5, h5, t6, h6, b6, hb6, t7, h7, h8⟩ := h
      have f7 : t7.program_break = t6.program_break := by
        rcases ite_some_cases h7 with ⟨-, h7⟩ | ⟨-, h7⟩
        · simp only [Option.bind_eq_some] at h7
          obtain ⟨nx, -, h7⟩ := h7
          rcases ite_some_cases h7 with ⟨-, h7⟩ | ⟨-, h7⟩
          · exact (add_to_free_list_frame hR h7).1
          · cases h7; rfl
        · cases h7; rfl
      cases h8
      show base ≤ t7.program_break ∧ t7.program_break ≤ base + HEAP_SIZE
      rw [f7, split_block_break h6, store_magic_break h5, (store_prev_frame hR h4).1,
        (store_next_frame hR h3).1, store_is_free_break h2, (store_size_frame hR h1).1]
      exact hr

theorem HmmFree_break {base : Nat} {s s1 : HmmState} {ptr : Nat} {d : Diag}
    (h : HmmFree base s ptr = some (s1, d)) : s1.program_break = s.program_break := by
  have hR := regs_kept_frame
  unfold HmmFree at h
  by_cases c0 : ptr = NULL
  · rw [if_pos c0] at h
    cases h
    rfl
  rw [if_neg c0] at h
  simp only [Option.bind_eq_bind, Option.bind_eq_some] at h
  obtain ⟨b, hb0, h⟩ := h
  by_cases c1 : b.magic ≠ MAGIC_NUMBER
  · rw [if_pos c1] at h
    cases h
    rfl
  rw [if_neg c1] at h
  by_cases c2 : b.is_free ≠ 0
  · rw [if_pos c2] at h
    cases h
    rfl
  rw [if_neg c2] at h
  simp only [Option.bind_eq_some] at h
  obtain ⟨t1, h1, b1, hb1, t3, h3, t4, h4, h5⟩ := h
  cases h5
  rw [(coalesce_frame hR h4).1, (add_to_free_list_frame hR h3).1]
  show t1.program_break = s.program_break
  exact store_is_free_break h1

/-- In every reachable state the break lies between the arena base and its end. -/
theorem reachable_break_in_arena {base : Nat} {c : Session} (h : Reachable base c) :
    base ≤ c.state.program_break ∧ c.state.program_break ≤ base + HEAP_SIZE := by
  induction h with
  | init hb =>
    show base ≤ base ∧ base ≤ base + HEAP_SIZE
    omega
  | step hr hs ih =>
    rename_i c0 c1 op
    cases op with
    | alloc n =>
      simp only [step] at hs
      rcases ite_some_cases hs with ⟨-, hs⟩ | ⟨-, hs⟩
      · simp only [Option.map_eq_some'] at hs
        obtain ⟨⟨s1, p⟩, h1, h2⟩ := hs
        cases h2
        exact HmmAlloc_break_in_arena ih h1
      · cases hs
    | free x =>
      simp only [step] at hs
      rcases ite_some_cases hs with ⟨-, hs⟩ | ⟨-, hs⟩
      · simp only [Option.map_eq_some'] at hs
        obtain ⟨⟨s1, d⟩, h1, h2⟩ := hs
        cases h2
        show base ≤ s1.program_break ∧ s1.program_break ≤ base + HEAP_SIZE
        rw [HmmFree_break h1]
        exact ih
      · cases hs
    | reset =>
      simp only [step] at hs
      cases hs
      show base ≤ base ∧ base ≤ base + HEAP_SIZE
      omega

/-! ## Splitting without wrap-around -/

/-- What `split_block` does when nothing wraps: for a block inside the array whose `next` link is
null, as at both calls in `HmmAlloc`, and a size with `size + HEADER_SIZE + ALIGNMENT` below
`2 ^ 64`, a block of payload size at least that threshold is cut to `size` and a new tagged free
header with the rest of the payload is written behind it, and every header that shares no byte
with these two is left as it was; a smaller block is left as it is. -/
theorem split_block_no_wrap (base : Nat) (s : HmmState) (block size : Nat) (hb : base_ok base)
    (hin : inHeap base block)
    (hext : block + HEADER_SIZE + (s.heap block).size ≤ base + HEAP_SIZE)
    (hnext : (s.heap block).next = NULL)
    (hsz : size + HEADER_SIZE + ALIGNMENT < WORD) :
    (size + HEADER_SIZE + ALIGNMENT ≤ (s.heap block).size →
      ∃ s1, split_block base s block size = some s1 ∧
        s1.heap block = { s.heap block with size := size, next := block + HEADER_SIZE + size } ∧
        s1.heap (block + HEADER_SIZE + size)
          = { size := (s.heap block).size - size - HEADER_SIZE, is_free := 1, next := NULL,
              prev := block, magic := MAGIC_NUMBER } ∧
        (∀ a, apart a block → apart a (block + HEADER_SIZE + size) → s1.heap a = s.heap a) ∧
        s1.program_break = s.program_break ∧ s1.free_list_head = s.free_list_head) ∧
    ((s.heap block).size < size + HEADER_SIZE + ALIGNMENT →
      split_block base s block size = some s) := by
  obtain ⟨hb0, hb1⟩ := hb
  rw [HEADER_SIZE_eq] at *
  rw [HEAP_SIZE_eq] at hb1 hext
  rw [WORD_eq] at hb1 hsz
  unfold ALIGNMENT at hsz ⊢
  have hin' := hin
  unfold inHeap sizeof_block_header_t at hin'
  rw [HEAP_SIZE_eq] at hin'
  have hu4 : uadd (uadd size 48) ALIGNMENT = size + 48 + 16 := by
    unfold uadd ALIGNMENT; rw [WORD_eq]; omega
  constructor
  · intro hge
    generalize hS : (s.heap block).size = S at *
    have hu1 : uadd (uadd block 48) size = block + 48 + size := by
      unfold uadd; rw [WORD_eq]; omega
    have hu5 : usub (usub S size) 48 = S - size - 48 := by
      unfold usub; rw [WORD_eq]; omega
    have hin2 : inHeap base (block + 48 + size) := by
      unfold inHeap sizeof_block_header_t
      rw [HEAP_SIZE_eq]; omega
    have hap : block + 40 ≤ block + 48 + size ∨ block + 48 + size + 40 ≤ block := by omega
    have hap2 : block + 48 + size + 40 ≤ block ∨ block + 40 ≤ block + 48 + size := by omega
    have hm1 : (S - size - 48) % WORD = S - size - 48 :=
      Nat.mod_eq_of_lt (by rw [WORD_eq]; omega)
    have hm2 : MAGIC_NUMBER % 2 ^ 32 = MAGIC_NUMBER := by decide
    have hm3 : NULL % WORD = NULL := by decide
    have hm4 : (block + 48 + size) % WORD = block + 48 + size :=
      Nat.mod_eq_of_lt (by rw [WORD_eq]; omega)
    have hm5 : block % WORD = block := Nat.mod_eq_of_lt (by rw [WORD_eq]; omega)
    have hm6 : size % WORD = size := Nat.mod_eq_of_lt (by rw [WORD_eq]; omega)
    have f1 := fun (t : HmmState) (v : Nat) => heap_poke_apart_size t _ v block hap
    have f2 := fun (t : HmmState) (v : Nat) => heap_poke_apart_is_free t _ v block hap
    have f3 := fun (t : HmmState) (v : Nat) => heap_poke_apart_next t _ v block hap
    have f4 := fun (t : HmmState) (v : Nat) => heap_poke_apart_prev t _ v block hap
    have f5 := fun (t : HmmState) (v : Nat) => heap_poke_apart_magic t _ v block hap
    have g1 := fun (t : HmmState) (v : Nat) => heap_poke_apart_size t _ v _ hap2
    have g3 := fun (t : HmmState) (v : Nat) => heap_poke_apart_next t _ v _ hap2
    have hrun : ∀ r : Option HmmState, r = split_block base s block size →
        ∃ s1, r = some s1 ∧
          s1.heap block = { s.heap block with size := size, next := block + 48 + size } ∧
          s1.heap (block + 48 + size)
            = { size := S - size - 48, is_free := 1, next := NULL,
                prev := block, magic := MAGIC_NUMBER } ∧
          (∀ a, apart a block → apart a (block + 48 + size) → s1.heap a = s.heap a) ∧
          s1.program_break = s.program_break ∧ s1.free_list_head = s.free_list_head := by
      intro r hr
      unfold split_block at hr
      simp only [Option.bind_eq_bind, load, if_pos hin, Option.some_bind, hS, hu4,
        ge_iff_le, if_pos hge, hu1, hu5, HEADER_SIZE_eq,
        store_size, store_is_free, store_magic, store_next, store_prev, if_pos hin2,
        f1, f2, f3, f4, f5, g1, g3, heap_poke_size, heap_poke_is_free, heap_poke_next,
        heap_poke_prev, heap_poke_magic, hnext, ne_eq, not_true_eq_false, if_false] at hr
      refine ⟨_, hr, ?_, ?_, ?_, rfl, rfl⟩
      · simp [f1, f2, f3, f4, f5, g1, g3, heap_poke_size, heap_poke_is_free, heap_poke_next,
          heap_poke_prev, heap_poke_magic, hm4, hm6]
      · simp [f1, f2, f3, f4, f5, g1, g3, heap_poke_size, heap_poke_is_free, heap_poke_next,
          heap_poke_prev, heap_poke_magic, hm1, hm2, hm3, hm5, of_int_one, to_int_one]
        decide
      · intro a h1 h2
        unfold apart sizeof_block_header_t at h1 h2
        simp only [heap_poke_apart_size _ _ _ a h1, heap_poke_apart_next _ _ _ a h1,
          heap_poke_apart_size _ _ _ a h2, heap_poke_apart_is_free _ _ _ a h2,
          heap_poke_apart_next _ _ _ a h2, heap_poke_apart_prev _ _ _ a h2,
          heap_poke_apart_magic _ _ _ a h2]
    exact hrun _ rfl
  · intro hlt
    unfold split_block
    simp only [Option.bind_eq_bind, load, if_pos hin, Option.some_bind, hu4, HEADER_SIZE_eq]
    rw [if_neg (by omega)]

/-! ## The claims on growth, the free list and the counters -/

/-- Claim C11.  In a state whose break lies in the arena, at offset `b` with `0 ≤ b ≤ HEAP_SIZE`,
and whose growth-event counter is below `SIZE_MAX`, for every amount that is a positive
`intptr_t`: `sbrk_simulate(amount)` succeeds (returns something other than `(void *)-1`) if and
only if `b + amount ≤ HEAP_SIZE`; on success it returns the previous break, the new break is
`b + amount` and the growth-event counter rises by one, nothing else changes; on failure it
returns `(void *)-1` and the state is unchanged. -/
theorem C11_sbrk_simulate (base : Nat) (s : HmmState) (amount : Int) (hb : base_ok base)
    (hlo : base ≤ s.program_break) (hhi : s.program_break ≤ base + HEAP_SIZE)
    (hpos : 0 < amount) (hrep : amount < 2 ^ 63)
    (hcnt : s.program_break_increments + 1 < WORD) :
    ((sbrk_simulate base s amount).2 ≠ SBRK_FAILED ↔
        ((s.program_break : Int) - (base : Int)) + amount ≤ (HEAP_SIZE : Int)) ∧
    (((s.program_break : Int) - (base : Int)) + amount ≤ (HEAP_SIZE : Int) →
      sbrk_simulate base s amount =
        ({ s with program_break := s.program_break + amount.toNat
                  program_break_increments := s.program_break_increments + 1 },
          s.program_break)) ∧
    (¬ ((s.program_break : Int) - (base : Int)) + amount ≤ (HEAP_SIZE : Int) →
      sbrk_simulate base s amount = (s, SBRK_FAILED)) := by
  obtain ⟨hb0, hb1⟩ := hb
  rw [HEAP_SIZE_eq] at *
  rw [WORD_eq] at hb1 hcnt
  have hcnt1 : uadd s.program_break_increments 1 = s.program_break_increments + 1 := by
    unfold uadd; rw [WORD_eq]; omega
  have hcase : ∀ h : ((s.program_break : Int) - (base : Int)) + amount ≤ 104857600,
      sbrk_simulate base s amount =
        ({ s with program_break := s.program_break + amount.toNat
                  program_break_increments := s.program_break_increments + 1 },
          s.program_break) := by
    intro h
    have hnb : (((s.program_break : Int) + amount) % (WORD : Int)).toNat
        = s.program_break + amount.toNat := by
      rw [WORD_eq]; omega
    simp only [sbrk_simulate, hnb, HEAP_SIZE_eq, hcnt1]
    rw [if_neg (by omega), if_pos hpos]
  have hfail : ∀ h : ¬ ((s.program_break : Int) - (base : Int)) + amount ≤ 104857600,
      sbrk_simulate base s amount = (s, SBRK_FAILED) := by
    intro h
    have hnb : (((s.program_break : Int) + amount) % (WORD : Int)).toNat < base ∨
        (((s.program_break : Int) + amount) % (WORD : Int)).toNat > base + 104857600 := by
      rw [WORD_eq]; omega
    simp only [sbrk_simulate, HEAP_SIZE_eq]
    rw [if_pos hnb]
  refine ⟨⟨fun h => ?_, fun h => ?_⟩, hcase, hfail⟩
  · by_contra hc
    rw [hfail hc] at h
    exact h rfl
  · rw [hcase h]
    show s.program_break ≠ SBRK_FAILED
    unfold SBRK_FAILED
    rw [WORD_eq]
    omega

/-- Witness for C11: growing the initial arena by 4096 bytes. -/
theorem C11_sbrk_simulate_witness :
    base_ok demo_base ∧ demo_base ≤ (init_state demo_base).program_break ∧
    (init_state demo_base).program_break ≤ demo_base + HEAP_SIZE ∧
    (0 : Int) < 4096 ∧ (4096 : Int) < 2 ^ 63 ∧
    (init_state demo_base).program_break_increments + 1 < WORD ∧
    ((sbrk_simulate demo_base (init_state demo_base) 4096).2 ≠ SBRK_FAILED ↔
        (((init_state demo_base).program_break : Int) - (demo_base : Int)) + 4096
          ≤ (HEAP_SIZE : Int)) :=
  ⟨by decide, by decide, by decide, by decide, by decide, by decide,
    (C11_sbrk_simulate demo_base (init_state demo_base) 4096
      (by decide) (by decide) (by decide) (by decide) (by decide) (by decide)).1⟩

/-- Claim C12 fails on the code.  After `HmmAlloc(64)` the free list holds the remainder of the
first chunk at `base + 112`.  `HmmAlloc(128)` takes that block from the list and splits it: the
remainder at `base + 288` (tagged, marked free, payload size 3760, ending exactly at the break)
is linked behind the allocated block but never passed to `add_to_free_list`, and the free list
is empty when `HmmAlloc` returns.  On the growth path the remainder is inserted. -/
theorem C12_split_remainder_not_listed :
    (run demo_base (init_session demo_base) [Op.alloc 64]).map
        (fun c => (c.state.free_list_head, (c.state.heap (demo_base + 112)).is_free))
      = some (demo_base + 112, 1) ∧
    (run demo_base (init_session demo_base) [Op.alloc 64, Op.alloc 128]).map
        (fun c => (c.live, c.state.free_list_head, c.state.program_break,
          c.state.heap (demo_base + 288)))
      = some ([demo_base + 160, demo_base + 48], NULL, demo_base + 4096,
          { size := 3760, is_free := 1, next := NULL, prev := demo_base + 112,
            magic := MAGIC_NUMBER }) ∧
    demo_base + 288 + HEADER_SIZE + 3760 = demo_base + 4096 := by
  decide

/-- Claim C13 fails on the code.  After `HmmAlloc(64)`, `HmmAlloc(128)`, `HmmFree(base + 48)`
and `HmmFree(base + 160)` both calls of `HmmFree` have completed, the blocks at `base` (payload
size 64) and at `base + 112` (payload size 128) are both marked free and both on the free list,
and the second starts exactly where the first ends: the free physical predecessor was not
merged.  The block at `base + 288` behind them is marked free as well. -/
theorem C13_adjacent_free_blocks :
    (run demo_base (init_session demo_base)
        [Op.alloc 64, Op.alloc 128, Op.free (demo_base + 48), Op.free (demo_base + 160)]).map
        (fun c => (c.state.free_list_head, c.state.heap (demo_base + 112),
          c.state.heap demo_base, (c.state.heap (demo_base + 288)).is_free))
      = some (demo_base + 112,
          { size := 128, is_free := 1, next := demo_base, prev := NULL,
            magic := MAGIC_NUMBER },
          { size := 64, is_free := 1, next := NULL, prev := demo_base + 112,
            magic := MAGIC_NUMBER }, 1) ∧
    demo_base + HEADER_SIZE + 64 = demo_base + 112 ∧
    demo_base + 112 + HEADER_SIZE + 128 = demo_base + 288 := by
  decide

/-- Claim C14 fails on the code.  After `HmmAlloc(5000)` the arena is one block of payload size
5008 and the break is at `base + 5056`.  The request `2 ^ 64 - 4144` reaches `sbrk_simulate` as
the increment `-4096` and moves the break back to `base + 960`: the walk from the arena base
finds the tagged header of the first block and steps to `base + 5056`, past the break, so the
committed range is not tiled by blocks. -/
theorem C14_break_inside_block :
    (run demo_base (init_session demo_base) [Op.alloc 5000]).map
        (fun c => (c.state.program_break, (c.state.heap demo_base).size,
          (c.state.heap demo_base).magic))
      = some (demo_base + 5056, 5008, MAGIC_NUMBER) ∧
    (run demo_base (init_session demo_base) [Op.alloc 5000, Op.alloc (2 ^ 64 - 4144)]).map
        (fun c => (c.live, c.state.program_break, (c.state.heap demo_base).size,
          (c.state.heap demo_base).magic))
      = some ([demo_base + 5104, demo_base + 48], demo_base + 960, 5008, MAGIC_NUMBER) ∧
    demo_base < demo_base + 960 ∧ demo_base + 960 < demo_base + HEADER_SIZE + 5008 := by
  decide

/-- Claim C15 fails on the code.  With the break at `base + 4096` after `HmmAlloc(64)`, the
request `2 ^ 64 - 4144` gives the growth request `2 ^ 64 - 4096`, whose conversion to `intptr_t`
is `-4096`; `sbrk_simulate` accepts it because the new break is not below the arena base, and
`HmmAlloc` returns a non-null handle with the break moved back to the arena base. -/
theorem C15_alloc_decreases_break :
    to_intptr (uadd (ALIGN (2 ^ 64 - 4144)) HEADER_SIZE) = -4096 ∧
    (run demo_base (init_session demo_base) [Op.alloc 64]).map
        (fun c => c.state.program_break) = some (demo_base + 4096) ∧
    (run demo_base (init_session demo_base) [Op.alloc 64, Op.alloc (2 ^ 64 - 4144)]).map
        (fun c => (c.live, c.state.program_break))
      = some ([demo_base + 4144, demo_base + 48], demo_base) := by
  decide

/-- Claim C16.  For every well-formed free list `l` (the chain of `next` links from
`free_list_head` through tagged free headers inside the array, ending at `NULL`) and every size,
`find_free_block` returns the first address in list order whose payload size is at least the
size asked for, so every block before it in the list is smaller; it returns `NULL` exactly when
no block on the list is large enough; and it returns only a pointer, the state is not changed. -/
theorem C16_first_fit (base : Nat) (s : HmmState) (size : Nat) (l : List Nat)
    (hl : free_list_from base s s.free_list_head l) :
    find_free_block base s size = some (first_fit s size l) ∧
    (first_fit s size l = NULL ↔ ∀ a ∈ l, (s.heap a).size < size) ∧
    (first_fit s size l ≠ NULL → ∃ pre post, l = pre ++ first_fit s size l :: post ∧
        (∀ a ∈ pre, (s.heap a).size < size) ∧ size ≤ (s.heap (first_fit s size l)).size) :=
  ⟨find_free_block_from_first_fit l HEAP_SIZE s.free_list_head hl (free_list_from_length hl),
    first_fit_spec size hl⟩

/-- Witness for C16: the free list `base + 112` (size 128), `base` (size 64) and the size 50. -/
theorem C16_first_fit_witness :
    free_list_from demo_base demo_two_free.state demo_two_free.state.free_list_head
      [demo_base + 112, demo_base] ∧
    find_free_block demo_base demo_two_free.state 50
      = some (first_fit demo_two_free.state 50 [demo_base + 112, demo_base]) ∧
    first_fit demo_two_free.state 50 [demo_base + 112, demo_base] = demo_base + 112 :=
  ⟨demo_two_free_list,
    (C16_first_fit demo_base demo_two_free.state 50 [demo_base + 112, demo_base]
      demo_two_free_list).1, by decide⟩

/-- Claim C17 fails on the code.  For a block of payload size `S = 4048` and the aligned request
`s = 2 ^ 64 - 48` we have `S < s + HEADER_SIZE + 16`, but the sum wraps to `16` in `size_t`, so
`split_block` takes the splitting branch: the new header is placed at
`block + HEADER_SIZE + s`, which wraps to the block itself, and the block ends with payload size
`2 ^ 64 - 48`, marked free and linked to itself.  `HmmAlloc(2 ^ 64 - 48)` in the initial state
makes exactly this call and returns `base + 48` for a block that it has marked free and put on
the free list. -/
theorem C17_split_threshold_wraps :
    (demo_chunk.heap demo_base).size < (2 ^ 64 - 48) + HEADER_SIZE + ALIGNMENT ∧
    (2 ^ 64 - 48) % ALIGNMENT = 0 ∧
    uadd (uadd (2 ^ 64 - 48) HEADER_SIZE) ALIGNMENT = 16 ∧
    (split_block demo_base demo_chunk demo_base (2 ^ 64 - 48)).map
        (fun t => t.heap demo_base)
      = some { size := 2 ^ 64 - 48, is_free := 1, next := demo_base, prev := demo_base,
               magic := MAGIC_NUMBER } ∧
    (HmmAlloc demo_base (init_state demo_base) (2 ^ 64 - 48)).map
        (fun r => (r.2, r.1.free_list_head, (r.1.heap demo_base).size,
          (r.1.heap demo_base).is_free))
      = some (demo_base + 48, demo_base, 2 ^ 64 - 48, 1) := by
  decide

/-- Claim C18 fails on the code.  After `HmmAlloc(64)` the free list is the block at
`base + 112`.  The request `2 ^ 64 - 4032` reaches `sbrk_simulate` as the increment `-3984` and
moves the break back to `base + 112`, so `HmmAlloc(5000)` builds its new block on top of the
listed one, which stays the list head.  Releasing that block inserts it in front of itself: its
`next` link points to itself.  The scan of `find_free_block` for a size larger than 5008 then
never reaches `NULL`: for every bound on the number of iterations it is still running. -/
theorem C18_free_list_cycle :
    (run demo_base (init_session demo_base)
        [Op.alloc 64, Op.alloc (2 ^ 64 - 4032), Op.alloc 5000]).map
        (fun c => (c.live, c.state.program_break, c.state.free_list_head))
      = some ([demo_base + 160, demo_base + 4144, demo_base + 48], demo_base + 5168,
          demo_base + 112) ∧
    (run demo_base (init_session demo_base)
        [Op.alloc 64, Op.alloc (2 ^ 64 - 4032), Op.alloc 5000, Op.free (demo_base + 160)]).map
        (fun c => (c.state.free_list_head, c.state.heap (demo_base + 112)))
      = some (demo_base + 112,
          { size := 5008, is_free := 1, next := demo_base + 112, prev := demo_base + 112,
            magic := MAGIC_NUMBER }) ∧
    (∀ fuel : Nat, find_free_block_from demo_base demo_cycle.state (ALIGN 6000) fuel
        demo_cycle.state.free_list_head = none) ∧
    HmmAlloc demo_base demo_cycle.state 6000 = none := by
  refine ⟨by decide, by decide, demo_cycle_loops, ?_⟩
  unfold HmmAlloc
  rw [if_neg (by decide)]
  simp only [find_free_block, demo_cycle_loops, Option.bind_eq_bind, Option.none_bind]

/-- Claim C19 fails on the code, at the smallest case.  After `h = HmmAlloc(64)` the free list is
the remainder at `base + 112`, which starts where the payload of the block ends.  `HmmFree(h)`
inserts the block at the head, so `block->next` is the remainder; `coalesce` adds its size to
the block and calls `remove_from_free_list`, which sets `block->next` to the remainder's `next`,
that is `NULL`; the next statement reads `block->next->next` through that null pointer.  The
call has no defined result. -/
theorem C19_release_reads_through_null :
    (run demo_base (init_session demo_base) [Op.alloc 64]).map
        (fun c => (c.live, c.state.free_list_head, (c.state.heap demo_base).size,
          (c.state.heap (demo_base + 112)).next))
      = some ([demo_base + 48], demo_base + 112, 64, NULL) ∧
    ((run demo_base (init_session demo_base) [Op.alloc 64]).bind fun c =>
        ((store_is_free demo_base c.state demo_base 1).bind fun s1 =>
          (add_to_free_list demo_base (count_free s1 (s1.heap demo_base).size) demo_base).bind
            fun s3 =>
          (store_size demo_base s3 demo_base
              (uadd (s3.heap demo_base).size
                (uadd HEADER_SIZE (s3.heap (s3.heap demo_base).next).size))).bind fun s4 =>
          (remove_from_free_list demo_base s4 (s4.heap demo_base).next).map fun s5 =>
            ((s3.heap demo_base).next, uadd (uadd demo_base HEADER_SIZE) (s3.heap demo_base).size,
              (s5.heap demo_base).next, (load demo_base s5 (s5.heap demo_base).next).isSome)))
      = some (demo_base + 112, demo_base + 112, NULL, false) ∧
    (run demo_base (init_session demo_base) [Op.alloc 64, Op.free (demo_base + 48)]).isSome
      = false := by
  decide

/-- Claim C20 fails on the code.  `HmmAlloc(4000)` gets a fresh chunk of payload size 4048, too
small to split, and adds the rounded request 4000 to the allocated bytes; `HmmFree` of that
handle adds the payload size 4048 of the block to the freed bytes, which then exceed the
allocated bytes. -/
theorem C20_freed_exceeds_allocated :
    (run demo_base (init_session demo_base) [Op.alloc 4000]).map
        (fun c => (c.live, c.state.total_allocated, c.state.total_freed,
          (c.state.heap demo_base).size))
      = some ([demo_base + 48], 4000, 0, 4048) ∧
    (run demo_base (init_session demo_base) [Op.alloc 4000, Op.free (demo_base + 48)]).map
        (fun c => (c.state.total_allocated, c.state.total_freed))
      = some (4000, 4048) := by
  decide

end Hmm
